import Mathlib

/-!
Verification of the transaction preparation, amount math, signer resolution and
instruction pool subsystem of the solana-foundation kit-react repository.

Each section shallowly embeds one source module:
* `Amounts`   — packages/client/src/numeric/amounts.ts
* `Pool`      — packages/client/src/transactions/transactionPoolController.ts
* `Tx`        — packages/client/src/features/transactions.ts
* `Tuner`     — packages/client/src/transactions/prepareTransaction.ts (the compute unit tuner)
* `Spl`       — packages/client/src/features/spl.ts
* `WalletSigner` — the wallet transaction signer module (createWalletTransactionSigner)

JavaScript strings are modelled as `List Char`, bigint as `Nat`/`Int`, promises and
thrown errors as `Except`, and the RPC transport as explicit environment records of
pure functions.  IEEE-754 double arithmetic (used by the compute unit tuner for the
multiplier) is modelled exactly with dyadic rationals and round-to-nearest-even.
-/

namespace KitReact

namespace Amounts

/-- Rounding modes accepted by fromDecimal, from rational.ts RoundingMode. -/
inductive RoundingMode where
  | floor
  | ceil
  | round
deriving DecidableEq, Repr, BEq

/-- Errors thrown by the amount parsing and formatting helpers.  The source throws
SyntaxError and RangeError carrying labelled messages; only the error class and site
are modelled. -/
inductive AmountError where
  | emptyValue
  | invalidPattern
  | invalidDecimals
  | negativeAmount
  | badMinimumFractionDigits
deriving DecidableEq, Repr

/-- Numeric value of a digit character, as in BigInt parsing. -/
def digitVal (c : Char) : Nat := c.toNat - '0'.toNat

/-- Character for a digit below ten, as in BigInt printing. -/
def digitChar (n : Nat) : Char := Char.ofNat ('0'.toNat + n)

/-- The regex class [1-9]: a digit character other than zero. -/
def isNonzeroDigit (c : Char) : Bool := decide ('1' ≤ c) && decide (c ≤ '9')

/-- The JS comparison first >= the character five, used by the round mode. -/
def ge5 (c : Char) : Bool := decide ('5' ≤ c)

/-- The JS test remainder[0] !== undefined && remainder[0] >= the character five. -/
def headGe5 (l : List Char) : Bool :=
  match l.head? with
  | some c => ge5 c
  | none => false

/-- String.prototype.trim: strip whitespace from both ends. -/
def trimChars (l : List Char) : List Char :=
  ((l.dropWhile Char.isWhitespace).reverse.dropWhile Char.isWhitespace).reverse

/-- value.replace over underscores followed by trim, from decimalToBaseUnits. -/
def sanitize (v : List Char) : List Char :=
  trimChars (v.filter (fun c => c != '_'))

/-- The DECIMAL_PATTERN regex: one or more digits, optionally a dot and one or more
digits. -/
def decimalPattern (s : List Char) : Bool :=
  let intDigits := s.takeWhile Char.isDigit
  match s.drop intDigits.length with
  | [] => !intDigits.isEmpty
  | c :: frac => !intDigits.isEmpty && c == '.' && !frac.isEmpty && frac.all Char.isDigit

/-- String.prototype.split on the first dot, yielding the integer part and the
optional fractional part.  The source splits after the pattern test has ensured at
most one dot is present. -/
def splitDot (s : List Char) : List Char × Option (List Char) :=
  let ip := s.takeWhile (fun c => c != '.')
  match s.drop ip.length with
  | [] => (ip, none)
  | _ :: rest => (ip, some rest)

/-- BigInt of a digit string. -/
def digitsToNat (l : List Char) : Nat :=
  l.foldl (fun acc c => acc * 10 + digitVal c) 0

/-- String.prototype.padEnd with a pad character. -/
def padEnd (l : List Char) (n : Nat) (c : Char) : List Char :=
  l ++ List.replicate (n - l.length) c

/-- String.prototype.padStart with a pad character. -/
def padStart (l : List Char) (n : Nat) (c : Char) : List Char :=
  List.replicate (n - l.length) c ++ l

/-- decimalToBaseUnits from amounts.ts: converts a decimal string into base units
while respecting the rounding preference.  The assertNonNegative call on the parsed
integer part is a no-op here since digit strings parse to Nat. -/
def decimalToBaseUnits (value : List Char) (decimals : Nat) (scale : Nat)
    (rounding : RoundingMode) : Except AmountError Nat :=
  let sanitized := sanitize value
  if sanitized.isEmpty then .error .emptyValue
  else if !decimalPattern sanitized then .error .invalidPattern
  else
    let parts := splitDot sanitized
    let integerPart := if parts.1.isEmpty then ['0'] else parts.1
    let result := digitsToNat integerPart * scale
    let fractionalDigits := (parts.2).getD []
    if decimals = 0 then
      if fractionalDigits.isEmpty then .ok result
      else
        let hasFractional := fractionalDigits.any isNonzeroDigit
        if rounding == .ceil && hasFractional then .ok (result + 1)
        else if rounding == .round && headGe5 fractionalDigits then .ok (result + 1)
        else .ok result
    else
      let truncatedFractional := padEnd (fractionalDigits.take decimals) decimals '0'
      let fractionalComponent := if truncatedFractional.isEmpty then 0
        else digitsToNat truncatedFractional
      let result2 := result + fractionalComponent
      if decimals < fractionalDigits.length then
        let remainderDigits := fractionalDigits.drop decimals
        let hasRemainder := remainderDigits.any isNonzeroDigit
        if rounding == .ceil && hasRemainder then .ok (result2 + 1)
        else if rounding == .round then
          if headGe5 remainderDigits then .ok (result2 + 1) else .ok result2
        else .ok result2
      else .ok result2

/-- fromDecimal of createTokenAmount, restricted to string inputs.  createTokenAmount
first runs assertDecimals (an integer between 0 and 38), computes scale with pow10,
and fromDecimal on a string delegates to decimalToBaseUnits. -/
def fromDecimal (decimals : Nat) (rounding : RoundingMode) (value : List Char) :
    Except AmountError Nat :=
  if decimals > 38 then .error .invalidDecimals
  else decimalToBaseUnits value decimals (10 ^ decimals) rounding

/-- BigInt.prototype.toString in base ten, defined with explicit fuel so that it is
structurally recursive; the fuel n + 1 always suffices. -/
def natToDigitsAux : Nat → Nat → List Char
  | 0, _ => []
  | fuel + 1, n =>
    if n < 10 then [digitChar n]
    else natToDigitsAux fuel (n / 10) ++ [digitChar (n % 10)]

/-- Decimal string of a natural number. -/
def natToDigits (n : Nat) : List Char := natToDigitsAux (n + 1) n

/-- The regex replace of a trailing run of zeros with the empty string. -/
def trimTrailing0 (l : List Char) : List Char :=
  ((l.reverse).dropWhile (fun c => c == '0')).reverse

/-- formatBaseUnits from amounts.ts: formats a base-unit amount into a decimal string
with optional zero padding and trailing zero trimming. -/
def formatBaseUnits (amount : Int) (decimals : Nat) (scale : Nat)
    (minimumFractionDigits : Nat) (trimTrailingZeros : Bool) :
    Except AmountError (List Char) :=
  if amount < 0 then .error .negativeAmount
  else if minimumFractionDigits > decimals then .error .badMinimumFractionDigits
  else
    let a := amount.toNat
    if decimals = 0 then .ok (natToDigits a)
    else
      let whole := a / scale
      let fraction0 := padStart (natToDigits (a % scale)) decimals '0'
      let fraction1 := if trimTrailingZeros then trimTrailing0 fraction0 else fraction0
      let fraction2 := if fraction1.length < minimumFractionDigits
        then padEnd fraction1 minimumFractionDigits '0' else fraction1
      if fraction2.isEmpty then .ok (natToDigits whole)
      else .ok (natToDigits whole ++ '.' :: fraction2)

/-- toDecimalString of createTokenAmount with its default formatting options
(minimumFractionDigits zero, trimTrailingZeros true); fromBaseUnits validates the
amount is non-negative, formatBaseUnits repeats that check. -/
def toDecimalString (decimals : Nat) (amount : Int) : Except AmountError (List Char) :=
  if decimals > 38 then .error .invalidDecimals
  else if amount < 0 then .error .negativeAmount
  else formatBaseUnits amount decimals (10 ^ decimals) 0 true

/-- The digits truncated away by fromDecimal: the fractional digits of the sanitized
input beyond the token decimals. -/
def remainderDigitsOf (value : List Char) (decimals : Nat) : List Char :=
  (((splitDot (sanitize value)).2).getD []).drop decimals

/-- The extra base unit contributed by the rounding mode, as a function of the
truncated-away remainder digits. -/
def roundIncrement (r : RoundingMode) (rem : List Char) : Nat :=
  match r with
  | .floor => 0
  | .ceil => if rem.any isNonzeroDigit then 1 else 0
  | .round => if headGe5 rem then 1 else 0

/-- The value obtained by truncating the fractional part to the token decimals. -/
def truncatedBase (value : List Char) (decimals : Nat) (scale : Nat) : Nat :=
  let parts := splitDot (sanitize value)
  let integerPart := if parts.1.isEmpty then ['0'] else parts.1
  digitsToNat integerPart * scale +
    digitsToNat (padEnd (((parts.2).getD []).take decimals) decimals '0')

/-- A canonical integer digit string: non-empty, all digits, and no leading zero
except for the single digit zero itself. -/
def canonicalIntPart (l : List Char) : Bool :=
  !l.isEmpty && l.all Char.isDigit &&
    (l == ['0'] || !(l.head? == some '0'))

/-- A canonical decimal string at the given precision: a canonical integer part,
optionally followed by a dot and a non-empty all-digit fractional part of at most
decimals digits that does not end in zero.  These are exactly the strings
toDecimalString produces with its default options. -/
def canonicalDecimal (v : List Char) (decimals : Nat) : Bool :=
  let parts := splitDot v
  match parts.2 with
  | none => canonicalIntPart parts.1
  | some f =>
    canonicalIntPart parts.1 && !f.isEmpty && f.all Char.isDigit &&
      decide (f.length ≤ decimals) && !(f.getLast? == some '0')

end Amounts

-- ============================================================================
-- Shared transaction data model (types.ts and the solana kit surface used here)
-- ============================================================================

/-- TransactionVersion from the kit: the string legacy or the number zero. -/
inductive TransactionVersion where
  | legacy
  | v0
deriving DecidableEq, Repr

/-- Commitment levels accepted by the RPC operations. -/
inductive Commitment where
  | processed
  | confirmed
  | finalized
deriving DecidableEq, Repr

/-- Blockhash lifetime: validity anchor for a transaction. -/
structure Lifetime where
  blockhash : String
  lastValidBlockHeight : Nat
deriving DecidableEq, Repr

/-- A transaction instruction.  Account lists do not affect any verified claim and
are omitted; the optional data bytes and the optional address table lookup fields
are kept because version resolution and compute budget detection read them. -/
structure Instr where
  programAddress : String
  data : Option (List Nat)
  addressTableLookup : Option Unit
  addressTableLookups : Option (List Unit)
deriving DecidableEq, Repr

/-- A TransactionSigner capability record.  The kit feature probes
isTransactionPartialSigner, isTransactionModifyingSigner and
isTransactionSendingSigner test for the presence of the corresponding methods;
only that presence information is relevant to the verified claims, so the method
payloads are abstracted to capability flags. -/
structure TransactionSigner where
  address : String
  hasSignTransactions : Bool
  hasModifyAndSignTransactions : Bool
  hasSignAndSendTransactions : Bool
deriving DecidableEq, Repr

/-- isTransactionPartialSigner from the kit: probes the signTransactions method. -/
def isTransactionPartialSigner (s : TransactionSigner) : Bool := s.hasSignTransactions

/-- isTransactionSendingSigner from the kit: probes signAndSendTransactions. -/
def isTransactionSendingSigner (s : TransactionSigner) : Bool :=
  s.hasSignAndSendTransactions

/-- A connected wallet session, reduced to the fields read by
createWalletTransactionSigner: the account address and the presence of the optional
signTransaction and sendTransaction capabilities.  connector, disconnect and
signMessage are never consulted by the embedded code. -/
structure WalletSession where
  accountAddress : String
  hasSignTransaction : Bool
  hasSendTransaction : Bool
deriving DecidableEq, Repr

/-- The signer strategy: the source strings are the words partial and send. -/
inductive SignerMode where
  | partialSign
  | send
deriving DecidableEq, Repr

/-- Errors raised by the embedded client code paths.  Solana errors are recognized
by code; only the already-processed transaction error is inspected by the client, so
other codes are collapsed into an opaque payload. -/
inductive ClientError where
  | emptyInstructions
  | aborted
  | missingFeePayer
  | unresolvedAuthoritySigner
  | walletUnsupported
  | walletSignatureMissing
  | negativeAmount
  | invalidAmount
  | alreadyProcessed
  | rpcError (code : Nat)
deriving DecidableEq, Repr

/-- isSolanaError with SOLANA_ERROR__TRANSACTION_ERROR__ALREADY_PROCESSED. -/
def isAlreadyProcessedError (e : ClientError) : Bool :=
  match e with
  | .alreadyProcessed => true
  | _ => false

/-- The compute budget program address constant. -/
def COMPUTE_BUDGET_PROGRAM_ADDRESS : String :=
  "ComputeBudget111111111111111111111111111111"

/-- Little endian bytes of a 32 bit integer, used by the compute budget
instruction encoders. -/
def u32le (n : Nat) : List Nat :=
  [n % 256, n / 256 % 256, n / 65536 % 256, n / 16777216 % 256]

/-- getSetComputeUnitLimitInstruction: discriminator byte 2 followed by the unit
count. -/
def getSetComputeUnitLimitInstruction (units : Nat) : Instr :=
  { programAddress := COMPUTE_BUDGET_PROGRAM_ADDRESS
    data := some (2 :: u32le units)
    addressTableLookup := none
    addressTableLookups := none }

/-- getSetComputeUnitPriceInstruction: discriminator byte 3 followed by the
micro-lamport price. -/
def getSetComputeUnitPriceInstruction (microLamports : Nat) : Instr :=
  { programAddress := COMPUTE_BUDGET_PROGRAM_ADDRESS
    data := some (3 :: u32le microLamports)
    addressTableLookup := none
    addressTableLookups := none }

/-- An unsigned transaction message as assembled by the kit builder functions. -/
structure TransactionMessage where
  version : TransactionVersion
  feePayer : Option String
  feePayerSigner : Option TransactionSigner
  instructions : List Instr
  lifetimeConstraint : Option Lifetime
deriving DecidableEq, Repr

/-- createTransactionMessage from the kit. -/
def createTransactionMessage (version : TransactionVersion) : TransactionMessage :=
  { version := version, feePayer := none, feePayerSigner := none
    instructions := [], lifetimeConstraint := none }

/-- setTransactionMessageFeePayer from the kit. -/
def setTransactionMessageFeePayer (a : String) (m : TransactionMessage) :
    TransactionMessage :=
  { m with feePayer := some a, feePayerSigner := none }

/-- setTransactionMessageFeePayerSigner from the kit. -/
def setTransactionMessageFeePayerSigner (s : TransactionSigner)
    (m : TransactionMessage) : TransactionMessage :=
  { m with feePayer := some s.address, feePayerSigner := some s }

/-- appendTransactionMessageInstruction from the kit. -/
def appendTransactionMessageInstruction (i : Instr) (m : TransactionMessage) :
    TransactionMessage :=
  { m with instructions := m.instructions ++ [i] }

/-- appendTransactionMessageInstructions from the kit. -/
def appendTransactionMessageInstructions (l : List Instr) (m : TransactionMessage) :
    TransactionMessage :=
  { m with instructions := m.instructions ++ l }

/-- setTransactionMessageLifetimeUsingBlockhash from the kit. -/
def setTransactionMessageLifetimeUsingBlockhash (l : Lifetime)
    (m : TransactionMessage) : TransactionMessage :=
  { m with lifetimeConstraint := some l }

-- ============================================================================
-- Exact binary64 model (namespace Jsd) for the compute unit tuner arithmetic
-- ============================================================================

namespace Jsd

/-- A non-negative JS number as a dyadic rational num divided by two to the shift.
Every non-negative finite binary64 value has this form. -/
structure JsNum where
  num : Nat
  shift : Nat
deriving DecidableEq, Repr

/-- Bit length computed with explicit fuel; the fuel n always suffices for n. -/
def bitLenAux : Nat → Nat → Nat
  | 0, _ => 0
  | fuel + 1, n => if n = 0 then 0 else bitLenAux fuel (n / 2) + 1

/-- Number of binary digits of a natural number; zero for zero. -/
def bitLen (n : Nat) : Nat := bitLenAux n n

/-- Round an integer significand to 53 bits with round-to-nearest, ties to even.
Returns the rounded significand m and the discarded exponent k, so that the
rounded value is m times two to the k. -/
def round53 (a : Nat) : Nat × Nat :=
  let L := bitLen a
  if L ≤ 53 then (a, 0)
  else
    let k := L - 53
    let q := a / 2 ^ k
    let r := a % 2 ^ k
    let half := 2 ^ (k - 1)
    let q2 := if half < r ∨ (r = half ∧ q % 2 = 1) then q + 1 else q
    (q2, k)

/-- Round the dyadic rational n over two to the s to the nearest binary64 value.
Normal range only: the tuner operates far away from subnormals and overflow. -/
def flD (n s : Nat) : JsNum :=
  let p := round53 n
  if s ≤ p.2 then ⟨p.1 * 2 ^ (p.2 - s), 0⟩ else ⟨p.1, s - p.2⟩

/-- Binary64 multiplication: exact product, then one rounding. -/
def jsMul (x y : JsNum) : JsNum := flD (x.num * y.num) (x.shift + y.shift)

/-- Conversion of a bigint to a JS number (rounds to nearest for 54 bits and up). -/
def jsOfNat (u : Nat) : JsNum := flD u 0

/-- Math.ceil of a non-negative JS number, as a natural number. -/
def jsCeilNat (x : JsNum) : Nat := (x.num + 2 ^ x.shift - 1) / 2 ^ x.shift

/-- The binary64 value closest to 1.1, written as a dyadic rational: its IEEE-754
bit pattern is 0x3FF199999999999A. -/
def DEFAULT_COMPUTE_UNIT_LIMIT_MULTIPLIER : JsNum := ⟨2476979795053773, 51⟩

/-- The exact-real formula max(1, ceil(u times eleven tenths)) with the 200000
fallback at zero.  Modelled from the spec wording of the tuner formula; used only to
compare the claim against the binary64 computation the code performs. -/
def specExactUnits (u : Nat) : Nat :=
  max 1 (if u = 0 then 200000 else (u * 11 + 9) / 10)

end Jsd

-- ============================================================================
-- Wallet signer resolution (createWalletTransactionSigner, resolveSignerMode)
-- ============================================================================

namespace Wallet

/-- The record returned by createWalletTransactionSigner. -/
structure WalletTransactionSigner where
  mode : SignerMode
  signer : TransactionSigner
deriving DecidableEq, Repr

/-- createWalletTransactionSigner: prefers the signTransaction capability and wraps
it as a partial signer exposing modifyAndSignTransactions and signTransactions;
otherwise wraps sendTransaction as a sending signer exposing only
signAndSendTransactions; otherwise throws.  The wrapped method bodies perform
signing I O and are abstracted to the capability flags they install. -/
def createWalletTransactionSigner (session : WalletSession) :
    Except ClientError WalletTransactionSigner :=
  if session.hasSignTransaction then
    .ok { mode := .partialSign
          signer := { address := session.accountAddress
                      hasSignTransactions := true
                      hasModifyAndSignTransactions := true
                      hasSignAndSendTransactions := false } }
  else if session.hasSendTransaction then
    .ok { mode := .send
          signer := { address := session.accountAddress
                      hasSignTransactions := false
                      hasModifyAndSignTransactions := false
                      hasSignAndSendTransactions := true } }
  else .error .walletUnsupported

/-- resolveSignerMode: partial when the partial signing interface is present, send
when only the sending interface is present, partial as permissive default. -/
def resolveSignerMode (signer : TransactionSigner) : SignerMode :=
  if isTransactionPartialSigner signer then .partialSign
  else if isTransactionSendingSigner signer then .send
  else .partialSign

end Wallet

-- ============================================================================
-- Transaction helper (features/transactions.ts)
-- ============================================================================

namespace Tx

/-- The authority union: TransactionSigner or WalletSession.  isWalletSession
discriminates by probing account, connector and disconnect; the sum type carries
that discrimination. -/
inductive TransactionAuthority where
  | signer (s : TransactionSigner)
  | wallet (w : WalletSession)
deriving DecidableEq, Repr

/-- The feePayer union: an address string or a TransactionSigner.  The source
detects the signer case by probing for an address property on an object. -/
inductive FeePayerInput where
  | addr (a : String)
  | signer (s : TransactionSigner)
deriving DecidableEq, Repr

/-- The requested version: an explicit TransactionVersion or the string auto. -/
inductive RequestedVersion where
  | explicitVersion (v : TransactionVersion)
  | auto
deriving DecidableEq, Repr

/-- TransactionPrepareRequest.  The abort signal is modelled by its aborted flag;
bigint or number compute budget values are modelled as naturals. -/
structure TransactionPrepareRequest where
  abortSignal : Option Bool
  authority : Option TransactionAuthority
  commitment : Option Commitment
  computeUnitLimit : Option Nat
  computeUnitPrice : Option Nat
  feePayer : Option FeePayerInput
  instructions : List Instr
  lifetime : Option Lifetime
  version : Option RequestedVersion
deriving DecidableEq, Repr

/-- TransactionPrepared: the immutable snapshot returned by prepare. -/
structure TransactionPrepared where
  commitment : Commitment
  computeUnitLimit : Option Nat
  computeUnitPrice : Option Nat
  feePayer : String
  instructions : List Instr
  lifetime : Lifetime
  message : TransactionMessage
  mode : SignerMode
  version : TransactionVersion
deriving DecidableEq, Repr

/-- hasSetComputeUnitLimitInstruction: a compute budget instruction with data whose
first byte is the SetComputeUnitLimit discriminator. -/
def hasSetComputeUnitLimitInstruction (instructions : List Instr) : Bool :=
  instructions.any fun i =>
    i.programAddress == COMPUTE_BUDGET_PROGRAM_ADDRESS && i.data.isSome &&
      ((i.data.getD []).head? == some 2)

/-- hasSetComputeUnitPriceInstruction: same with the SetComputeUnitPrice byte. -/
def hasSetComputeUnitPriceInstruction (instructions : List Instr) : Bool :=
  instructions.any fun i =>
    i.programAddress == COMPUTE_BUDGET_PROGRAM_ADDRESS && i.data.isSome &&
      ((i.data.getD []).head? == some 3)

/-- instructionUsesAddressLookup: a non-null addressTableLookup property or a
non-empty addressTableLookups array. -/
def instructionUsesAddressLookup (i : Instr) : Bool :=
  i.addressTableLookup.isSome ||
    (match i.addressTableLookups with
     | some l => !l.isEmpty
     | none => false)

/-- resolveVersion.  The source guard is requested && requested !== auto; the
version zero literal is falsy in JS, so only an explicit legacy request takes the
verbatim branch and an explicit zero falls through to the auto logic. -/
def resolveVersion (requested : Option RequestedVersion)
    (instructions : List Instr) : TransactionVersion :=
  if requested == some (.explicitVersion .legacy) then .legacy
  else if instructions.any instructionUsesAddressLookup then .v0 else .legacy

/-- normaliseCommitment: the request override or the lazily read fallback. -/
def normaliseCommitment (request : TransactionPrepareRequest)
    (getFallbackCommitment : Commitment) : Commitment :=
  request.commitment.getD getFallbackCommitment

/-- The pair returned by resolveFeePayerAddress. -/
structure ResolvedFeePayer where
  address : String
  signer : Option TransactionSigner
deriving DecidableEq, Repr

/-- resolveFeePayerAddress: an explicit signer fee payer wins with its own signer;
an explicit address reuses the authority signer only when the addresses match;
otherwise the authority signer doubles as fee payer; with neither, throw. -/
def resolveFeePayerAddress (feePayer : Option FeePayerInput)
    (authoritySigner : Option TransactionSigner) :
    Except ClientError ResolvedFeePayer :=
  match feePayer, authoritySigner with
  | none, none => .error .missingFeePayer
  | some (.signer s), _ => .ok { address := s.address, signer := some s }
  | some (.addr a), some as =>
    if as.address == a then .ok { address := a, signer := some as }
    else .ok { address := a, signer := none }
  | some (.addr a), none => .ok { address := a, signer := none }
  | none, some as => .ok { address := as.address, signer := some as }

/-- The authority resolution block at the top of prepare: classifies the authority
into a signer and a mode.  An absent authority leaves no signer and the partial
default.  The commitment passed to createWalletTransactionSigner only configures the
send path of the wrapped signer and does not affect classification. -/
def resolveAuthority (authority : Option TransactionAuthority) :
    Except ClientError (Option TransactionSigner × SignerMode) :=
  match authority with
  | none => .ok (none, .partialSign)
  | some (.wallet w) => do
    let ws ← Wallet.createWalletTransactionSigner w
    .ok (some ws.signer, ws.mode)
  | some (.signer s) => .ok (some s, Wallet.resolveSignerMode s)

/-- resolveComputeUnitLimit: an explicit request is honored only when no compute
unit limit instruction already exists among the instructions. -/
def resolveComputeUnitLimit (request : TransactionPrepareRequest)
    (instructions : List Instr) : Option Nat :=
  match request.computeUnitLimit with
  | none => none
  | some v =>
    if hasSetComputeUnitLimitInstruction instructions then none else some v

/-- resolveComputeUnitPrice: same idempotence rule for the price instruction. -/
def resolveComputeUnitPrice (request : TransactionPrepareRequest)
    (instructions : List Instr) : Option Nat :=
  match request.computeUnitPrice with
  | none => none
  | some v =>
    if hasSetComputeUnitPriceInstruction instructions then none else some v

/-- The environment of prepare: the getLatestBlockhash RPC operation. -/
structure PrepEnv where
  getLatestBlockhash : Commitment → Except ClientError Lifetime

/-- The mode forcing step of prepare: a sending mode survives only when the
resolved fee payer signer exists and is itself a transaction sending signer. -/
def forceMode (mode : SignerMode) (feePayerSigner : Option TransactionSigner) :
    SignerMode :=
  match mode, feePayerSigner with
  | .send, some s => if isTransactionSendingSigner s then .send else .partialSign
  | .send, none => .partialSign
  | m, _ => m

/-- prepare from createTransactionHelper. -/
def prepare (env : PrepEnv) (getFallbackCommitment : Commitment)
    (request : TransactionPrepareRequest) : Except ClientError TransactionPrepared := do
  if request.instructions.isEmpty then throw .emptyInstructions
  if request.abortSignal == some true then throw .aborted
  let commitment := normaliseCommitment request getFallbackCommitment
  let (authoritySigner, walletMode) ← resolveAuthority request.authority
  let fp ← resolveFeePayerAddress request.feePayer authoritySigner
  let mode := forceMode walletMode fp.signer
  let baseInstructions := request.instructions
  let version := resolveVersion request.version baseInstructions
  let lifetime ← match request.lifetime with
    | some l => pure l
    | none => env.getLatestBlockhash commitment
  if request.abortSignal == some true then throw .aborted
  let resolvedComputeUnitLimit := resolveComputeUnitLimit request baseInstructions
  let computeUnitPrice := resolveComputeUnitPrice request baseInstructions
  let preInstructions : List Instr :=
    (match resolvedComputeUnitLimit with
     | some u => [getSetComputeUnitLimitInstruction u]
     | none => []) ++
    (match computeUnitPrice with
     | some p => [getSetComputeUnitPriceInstruction p]
     | none => [])
  let instructionSequence := preInstructions ++ baseInstructions
  if request.abortSignal == some true then throw .aborted
  let finalMessage :=
    setTransactionMessageLifetimeUsingBlockhash lifetime
      (appendTransactionMessageInstructions instructionSequence
        (match fp.signer with
         | some s => setTransactionMessageFeePayerSigner s
             (createTransactionMessage version)
         | none => setTransactionMessageFeePayer fp.address
             (createTransactionMessage version)))
  .ok { commitment := commitment
        computeUnitLimit := resolvedComputeUnitLimit
        computeUnitPrice := computeUnitPrice
        feePayer := fp.address
        instructions := baseInstructions
        lifetime := lifetime
        message := finalMessage
        mode := mode
        version := version }

end Tx

-- ============================================================================
-- Compute unit tuner (transactions/prepareTransaction.ts)
-- ============================================================================

namespace Tuner

/-- The caller options of prepareTransaction; the transaction and the rpc are
passed alongside.  The logRequest callback receives the Base64 wire encoding of the
final message; since the function returns that final message, the callback argument
is fully determined by the return value and is not carried separately. -/
structure PrepareTransactionOptions where
  computeUnitLimitMultiplier : Option Jsd.JsNum
  computeUnitLimitReset : Option Bool
  blockhashReset : Option Bool
deriving DecidableEq, Repr

/-- The environment of the tuner: getLatestBlockhash issued without a commitment,
and simulateTransaction returning the optional unitsConsumed count.  The base64
wire encoding is injective on messages, so the simulation is modelled on the
message itself. -/
structure TunerEnv where
  getLatestBlockhash : Except ClientError Lifetime
  simulateTransaction : TransactionMessage → Except ClientError (Option Nat)

/-- isComputeUnitLimitInstruction from the tuner: compute budget program and first
data byte 2; an absent data field compares unequal. -/
def isComputeUnitLimitInstruction (i : Instr) : Bool :=
  i.programAddress == COMPUTE_BUDGET_PROGRAM_ADDRESS &&
    ((i.data.getD []).head? == some 2)

/-- estimateComputeUnits: attach a lifetime when absent (for simulation only),
serialize, simulate with sigVerify and replaceRecentBlockhash disabled, then
Number(value.unitsConsumed ?? 0) || 0. -/
def estimateComputeUnits (env : TunerEnv) (transaction : TransactionMessage) :
    Except ClientError Nat := do
  let target ← if transaction.lifetimeConstraint.isNone then do
      let latest ← env.getLatestBlockhash
      pure (setTransactionMessageLifetimeUsingBlockhash latest transaction)
    else pure transaction
  let value ← env.simulateTransaction target
  pure (value.getD 0)

/-- Array.prototype.splice replacing one element at the index. -/
def spliceReplace (l : List Instr) (idx : Nat) (i : Instr) : List Instr :=
  l.take idx ++ [i] ++ l.drop (idx + 1)

/-- The unit count the tuner requests: Math.max(1, u ? Math.ceil(u * multiplier)
: 200000) computed in binary64 arithmetic, where u is the bigint unitsConsumed
converted by Number. -/
def tunedUnits (u : Nat) (multiplier : Jsd.JsNum) : Nat :=
  Nat.max 1 (if u ≠ 0 then Jsd.jsCeilNat (Jsd.jsMul (Jsd.jsOfNat u) multiplier)
             else 200000)

/-- prepareTransaction: install or refresh the compute unit limit instruction, then
refresh or attach the blockhash lifetime, then log the final message. -/
def prepareTransaction (env : TunerEnv) (config : PrepareTransactionOptions)
    (transaction0 : TransactionMessage) : Except ClientError TransactionMessage := do
  let multiplier :=
    config.computeUnitLimitMultiplier.getD Jsd.DEFAULT_COMPUTE_UNIT_LIMIT_MULTIPLIER
  let shouldResetBlockhash := config.blockhashReset != some false
  let shouldResetComputeUnits := config.computeUnitLimitReset.getD false
  let computeLimitIndex := transaction0.instructions.findIdx? isComputeUnitLimitInstruction
  let transaction1 ←
    if computeLimitIndex.isNone || shouldResetComputeUnits then do
      let unitsFromSimulation ← estimateComputeUnits env transaction0
      let units := tunedUnits unitsFromSimulation multiplier
      let instruction := getSetComputeUnitLimitInstruction units
      match computeLimitIndex with
      | none => pure (appendTransactionMessageInstruction instruction transaction0)
      | some idx =>
        pure { transaction0 with
               instructions := spliceReplace transaction0.instructions idx instruction }
    else pure transaction0
  let transactionHasLifetime := transaction1.lifetimeConstraint.isSome
  let transaction2 ←
    if shouldResetBlockhash || !transactionHasLifetime then do
      let latest ← env.getLatestBlockhash
      if !transactionHasLifetime then
        pure (setTransactionMessageLifetimeUsingBlockhash latest transaction1)
      else if shouldResetBlockhash then
        pure { transaction1 with lifetimeConstraint := some latest }
      else pure transaction1
    else pure transaction1
  pure transaction2

end Tuner

-- ============================================================================
-- Instruction pool controller (transactions/transactionPoolController.ts)
-- ============================================================================

namespace Pool

/-- AsyncStatus from state/asyncState.ts. -/
inductive AsyncStatus where
  | idle
  | loading
  | success
  | error
deriving DecidableEq, Repr

/-- AsyncState: a status with optional data and an opaque optional error. -/
structure AsyncState (α : Type) where
  data : Option α
  error : Option Nat
  status : AsyncStatus
deriving DecidableEq, Repr

/-- createInitialAsyncState. -/
def createInitialAsyncState (α : Type) : AsyncState α :=
  { data := none, error := none, status := .idle }

/-- createAsyncState with an explicit payload. -/
def createAsyncState {α : Type} (status : AsyncStatus) (data : Option α)
    (error : Option Nat) : AsyncState α :=
  { data := data, error := error, status := status }

/-- A lifetime snapshot fed by the external poller. -/
structure LatestBlockhashCache (L : Type) where
  updatedAt : Int
  value : L
deriving DecidableEq, Repr

/-- The observable state slices of the controller, one store each. -/
inductive Slice where
  | instructions
  | prepared
  | prepareState
  | sendState
deriving DecidableEq, Repr

/-- The controller state: one snapshot per store plus the non-reactive cache. -/
structure PoolState (I P S L : Type) where
  instructions : List I
  prepared : Option P
  prepareState : AsyncState P
  sendState : AsyncState S
  latestBlockhashCache : Option (LatestBlockhashCache L)
deriving DecidableEq, Repr

/-- resetDerivedState: clear the prepared snapshot and both async states.  The
second component lists the store writes in order; every setSnapshot call notifies
the subscribed listeners of that slice. -/
def resetDerivedState {I P S L : Type} (s : PoolState I P S L) :
    PoolState I P S L × List Slice :=
  ({ s with prepared := none
            prepareState := createInitialAsyncState P
            sendState := createInitialAsyncState S },
   [.prepared, .prepareState, .sendState])

/-- commitInstructions: freeze and store the next list, then reset derived state. -/
def commitInstructions {I P S L : Type} (next : List I) (s : PoolState I P S L) :
    PoolState I P S L × List Slice :=
  let s1 := { s with instructions := next }
  let r := resetDerivedState s1
  (r.1, .instructions :: r.2)

/-- addInstruction. -/
def addInstruction {I P S L : Type} (i : I) (s : PoolState I P S L) :
    PoolState I P S L × List Slice :=
  commitInstructions (s.instructions ++ [i]) s

/-- addInstructions: early return leaves every store untouched on an empty input. -/
def addInstructions {I P S L : Type} (instructionSet : List I)
    (s : PoolState I P S L) : PoolState I P S L × List Slice :=
  if instructionSet.isEmpty then (s, [])
  else commitInstructions (s.instructions ++ instructionSet) s

/-- replaceInstructions. -/
def replaceInstructions {I P S L : Type} (instructionSet : List I)
    (s : PoolState I P S L) : PoolState I P S L × List Slice :=
  commitInstructions instructionSet s

/-- clearInstructions. -/
def clearInstructions {I P S L : Type} (s : PoolState I P S L) :
    PoolState I P S L × List Slice :=
  commitInstructions [] s

/-- removeInstruction: early return on an out of range index, else filter the
index out.  The JS index is a number and may be negative, hence Int. -/
def removeInstruction {I P S L : Type} (index : Int) (s : PoolState I P S L) :
    PoolState I P S L × List Slice :=
  let current := s.instructions
  if index < 0 ∨ (current.length : Int) ≤ index then (s, [])
  else
    commitInstructions
      ((current.enum.filter (fun p => (p.1 : Int) ≠ index)).map (fun p => p.2)) s

/-- reset: commit the initial instruction list captured at construction. -/
def reset {I P S L : Type} (initialInstructions : List I) (s : PoolState I P S L) :
    PoolState I P S L × List Slice :=
  commitInstructions initialInstructions s

/-- The store writes performed by a prepare call that succeeds with prepared p:
prepareState loading, then prepared, then prepareState success. -/
def prepareSucceedsEffect {I P S L : Type} (p : P) (s : PoolState I P S L) :
    PoolState I P S L × List Slice :=
  let s1 := { s with prepareState := createAsyncState .loading none none }
  let s2 := { s1 with prepared := some p }
  let s3 := { s2 with prepareState := createAsyncState .success (some p) none }
  (s3, [.prepareState, .prepared, .prepareState])

/-- The store writes performed by a prepare call that throws: loading then error;
the error is recorded before the rethrow. -/
def prepareFailsEffect {I P S L : Type} (e : Nat) (s : PoolState I P S L) :
    PoolState I P S L × List Slice :=
  let s1 := { s with prepareState := createAsyncState .loading none none }
  let s2 := { s1 with prepareState := createAsyncState .error none (some e) }
  (s2, [.prepareState, .prepareState])

/-- The store writes of a send call that succeeds. -/
def sendSucceedsEffect {I P S L : Type} (sig : S) (s : PoolState I P S L) :
    PoolState I P S L × List Slice :=
  let s1 := { s with sendState := (createAsyncState .loading none none : AsyncState S) }
  let s2 := { s1 with sendState := createAsyncState .success (some sig) none }
  (s2, [.sendState, .sendState])

/-- The store writes of a send call that throws. -/
def sendFailsEffect {I P S L : Type} (e : Nat) (s : PoolState I P S L) :
    PoolState I P S L × List Slice :=
  let s1 := { s with sendState := (createAsyncState .loading none none : AsyncState S) }
  let s2 := { s1 with sendState := (createAsyncState .error none (some e) : AsyncState S) }
  (s2, [.sendState, .sendState])

/-- setLatestBlockhashCache: a plain variable write, no store notification. -/
def setLatestBlockhashCache {I P S L : Type}
    (cache : Option (LatestBlockhashCache L)) (s : PoolState I P S L) :
    PoolState I P S L × List Slice :=
  ({ s with latestBlockhashCache := cache }, [])

/-- The operations of the controller relevant to the pool invalidation claims:
the six instruction mutations, the cache write, and the completed prepare and send
calls (each summarized by its sequence of store writes). -/
inductive PoolOp (I P S L : Type) where
  | addInstruction (i : I)
  | addInstructions (l : List I)
  | replaceInstructions (l : List I)
  | clearInstructions
  | removeInstruction (index : Int)
  | reset
  | setLatestBlockhashCache (cache : Option (LatestBlockhashCache L))
  | prepareSucceeds (p : P)
  | prepareFails (e : Nat)
  | sendSucceeds (sig : S)
  | sendFails (e : Nat)

/-- Interpretation of one operation on the controller state. -/
def applyOp {I P S L : Type} (initialInstructions : List I) (op : PoolOp I P S L)
    (s : PoolState I P S L) : PoolState I P S L × List Slice :=
  match op with
  | .addInstruction i => addInstruction i s
  | .addInstructions l => addInstructions l s
  | .replaceInstructions l => replaceInstructions l s
  | .clearInstructions => clearInstructions s
  | .removeInstruction index => removeInstruction index s
  | .reset => reset initialInstructions s
  | .setLatestBlockhashCache cache => setLatestBlockhashCache cache s
  | .prepareSucceeds p => prepareSucceedsEffect p s
  | .prepareFails e => prepareFailsEffect e s
  | .sendSucceeds sig => sendSucceedsEffect sig s
  | .sendFails e => sendFailsEffect e s

/-- Interpretation of an operation sequence, discarding notifications. -/
def applyOps {I P S L : Type} (initialInstructions : List I)
    (ops : List (PoolOp I P S L)) (s : PoolState I P S L) : PoolState I P S L :=
  ops.foldl (fun st op => (applyOp initialInstructions op st).1) s

/-- Whether an operation is one of the six instruction mutation methods. -/
def isMutationOp {I P S L : Type} : PoolOp I P S L → Bool
  | .addInstruction _ => true
  | .addInstructions _ => true
  | .replaceInstructions _ => true
  | .clearInstructions => true
  | .removeInstruction _ => true
  | .reset => true
  | _ => false

/-- Whether a mutation call actually commits (is not one of the two documented
early returns) in the given state. -/
def mutationCommits {I P S L : Type} (op : PoolOp I P S L)
    (s : PoolState I P S L) : Prop :=
  match op with
  | .addInstructions l => l ≠ []
  | .removeInstruction index => 0 ≤ index ∧ index < (s.instructions.length : Int)
  | .addInstruction _ => True
  | .replaceInstructions _ => True
  | .clearInstructions => True
  | .reset => True
  | _ => False

/-- The initial controller state built by createTransactionPoolController. -/
def initialPoolState (I P S L : Type) (initialInstructions : List I) :
    PoolState I P S L :=
  { instructions := initialInstructions
    prepared := none
    prepareState := createInitialAsyncState P
    sendState := createInitialAsyncState S
    latestBlockhashCache := none }

/-- blockhashMaxAgeMs: the configured value or the 30000 ms default. -/
def blockhashMaxAgeMsOf (configured : Option Int) : Int :=
  configured.getD 30000

/-- resolveCachedLifetime: no cache or an expired cache yields nothing; the test is
now minus updatedAt strictly greater than the max age. -/
def resolveCachedLifetime {L : Type} (latestBlockhashCache : Option (LatestBlockhashCache L))
    (blockhashMaxAgeMs : Int) (now : Int) : Option L :=
  match latestBlockhashCache with
  | none => none
  | some cache =>
    if blockhashMaxAgeMs < now - cache.updatedAt then none
    else some cache.value

/-- The lifetime the pool prepare passes to the helper: the callers lifetime if
present, else the still-valid cached lifetime, else nothing (the helper then
fetches fresh).  Mirrors the two lines computing cachedLifetime and
restWithLifetime in prepare. -/
def prepareEffectiveLifetime {L : Type} (requestLifetime : Option L)
    (latestBlockhashCache : Option (LatestBlockhashCache L))
    (blockhashMaxAgeMs : Int) (now : Int) : Option L :=
  let cachedLifetime :=
    match requestLifetime with
    | some l => some l
    | none => resolveCachedLifetime latestBlockhashCache blockhashMaxAgeMs now
  if cachedLifetime.isSome && requestLifetime.isNone then cachedLifetime
  else requestLifetime

/-- resolveLifetimeOptions, used by prepareAndSend: identical policy written with
early returns. -/
def resolveLifetimeOptions {L : Type} (optionsLifetime : Option L)
    (latestBlockhashCache : Option (LatestBlockhashCache L))
    (blockhashMaxAgeMs : Int) (now : Int) : Option L :=
  match optionsLifetime with
  | some l => some l
  | none =>
    match resolveCachedLifetime latestBlockhashCache blockhashMaxAgeMs now with
    | none => none
    | some cachedLifetime => some cachedLifetime

end Pool

-- ============================================================================
-- SPL token helper (features/spl.ts)
-- ============================================================================

namespace Spl

/-- SPL transfer amounts: bigint and integer JS numbers are collapsed into the
integer case, decimal inputs arrive as strings. -/
inductive SplAmount where
  | intAmount (n : Int)
  | strAmount (s : List Char)
deriving DecidableEq, Repr

/-- toBigint from math.ts on a string: trim, match an optional sign followed by
digits, and parse. -/
def toBigintOfString (s : List Char) : Except ClientError Int :=
  let trimmed := Amounts.trimChars s
  let signed : Int × List Char :=
    match trimmed with
    | '-' :: rest => (-1, rest)
    | '+' :: rest => (1, rest)
    | rest => (1, rest)
  if signed.2.isEmpty then .error .invalidAmount
  else if !signed.2.all Char.isDigit then .error .invalidAmount
  else .ok (signed.1 * (Amounts.digitsToNat signed.2 : Int))

/-- fromBaseUnits of the token math: toBigint followed by assertNonNegative. -/
def splFromBaseUnits (amount : SplAmount) : Except ClientError Nat :=
  match amount with
  | .intAmount n => if n < 0 then .error .negativeAmount else .ok n.toNat
  | .strAmount s => do
    let v ← toBigintOfString s
    if v < 0 then .error .negativeAmount else .ok v.toNat

/-- fromDecimal of the token math on transfer amounts: an integer number is scaled
by ten to the decimals (after the safe range check, not modelled for Int), a string
goes through decimalToBaseUnits with the default floor rounding. -/
def splFromDecimal (decimals : Nat) (amount : SplAmount) : Except ClientError Nat :=
  match amount with
  | .intAmount n =>
    if n < 0 then .error .negativeAmount else .ok (n.toNat * 10 ^ decimals)
  | .strAmount s =>
    match Amounts.decimalToBaseUnits s decimals (10 ^ decimals) .floor with
    | .ok v => .ok v
    | .error _ => .error .invalidAmount

/-- Instructions built by the SPL helper, as opaque records of the arguments the
external builders receive. -/
inductive SplInstr where
  | createAssociatedToken (ata mint owner payer : String)
  | transferChecked (amount : Nat) (authority : String) (decimals : Nat)
      (destination mint source : String)
deriving DecidableEq, Repr

/-- The transaction message the SPL helper assembles: version (default zero), fee
payer, a blockhash lifetime, then the instruction list. -/
structure SplMessage where
  version : TransactionVersion
  feePayer : String
  lifetimeConstraint : Lifetime
  instructions : List SplInstr
deriving DecidableEq, Repr

/-- SplTransferPrepareConfig from spl.ts. -/
structure SplTransferPrepareConfig where
  amount : SplAmount
  amountInBaseUnits : Bool
  authority : Tx.TransactionAuthority
  commitment : Option Commitment
  destinationOwner : String
  destinationToken : Option String
  ensureDestinationAta : Option Bool
  lifetime : Option Lifetime
  sourceOwner : Option String
  sourceToken : Option String
  transactionVersion : Option TransactionVersion
deriving DecidableEq, Repr

/-- PreparedSplTransfer from spl.ts. -/
structure PreparedSplTransfer where
  amount : Nat
  commitment : Option Commitment
  decimals : Nat
  destinationAta : String
  lifetime : Lifetime
  message : SplMessage
  mode : SignerMode
  signer : TransactionSigner
  sourceAta : String
deriving DecidableEq, Repr

/-- The value part of the getTokenAccountBalance RPC response. -/
structure SplBalanceValue where
  amount : List Char
  uiAmountString : Option (List Char)
deriving DecidableEq, Repr

/-- SplTokenBalance from spl.ts; existsFlag embeds the exists field. -/
structure SplTokenBalance where
  amount : Nat
  ataAddress : String
  decimals : Nat
  existsFlag : Bool
  uiAmount : List Char
deriving DecidableEq, Repr

/-- Options accepted by the SPL send paths; abort signals and minContextSlot only
flow through to the environment calls and are omitted. -/
structure SplSendOptions where
  commitment : Option Commitment
  maxRetries : Option Int
  skipPreflight : Option Bool
deriving DecidableEq, Repr

/-- The arguments the rpc sendTransaction call receives besides the wire payload. -/
structure SplSendArgs where
  preflightCommitment : Option Commitment
  maxRetries : Option Int
  skipPreflight : Option Bool
deriving DecidableEq, Repr

/-- The helper configuration: mint address, optional known decimals.  The token
program addresses only select which ATA derivation the environment performs. -/
structure SplTokenHelperConfig where
  mint : String
  decimals : Option Nat
deriving DecidableEq, Repr

/-- The RPC and signing environment of the SPL helper.  findAssociatedTokenPda is
a pure derivation for the fixed mint and token program; account existence is the
non-null test on the getAccountInfo value; the sign functions stand for the signer
controlled I O; sendTransaction consumes the Base64 wire encoding of the signed
transaction, modelled by the signed message itself. -/
structure SplEnv where
  getLatestBlockhash : Option Commitment → Except ClientError Lifetime
  findAssociatedTokenPda : String → String
  fetchMintDecimals : Option Commitment → Except ClientError Nat
  getAccountInfo : String → Except ClientError Bool
  getTokenAccountBalance : String → Except ClientError SplBalanceValue
  signAndSendTransactionMessage : SplMessage → Except ClientError String
  signTransactionMessage : SplMessage → Except ClientError SplMessage
  sendTransaction : SplMessage → SplSendArgs → Except ClientError String

/-- resolveLifetime from spl.ts: the explicit fallback wins, else fetch. -/
def resolveLifetime (env : SplEnv) (commitment : Option Commitment)
    (fallback : Option Lifetime) : Except ClientError Lifetime :=
  match fallback with
  | some l => .ok l
  | none => env.getLatestBlockhash commitment

/-- resolveSigner from spl.ts: wallet sessions go through
createWalletTransactionSigner, other signers through resolveSignerMode. -/
def resolveSigner (authority : Tx.TransactionAuthority) :
    Except ClientError Wallet.WalletTransactionSigner :=
  match authority with
  | .wallet w => Wallet.createWalletTransactionSigner w
  | .signer s => .ok { mode := Wallet.resolveSignerMode s, signer := s }

/-- resolveDecimals of createSplTokenHelper: the configured decimals, else the
mint account fetch.  The closure caches the fetched value; with a pure environment
the cache is observationally transparent and is not modelled. -/
def resolveDecimals (env : SplEnv) (config : SplTokenHelperConfig)
    (commitment : Option Commitment) : Except ClientError Nat :=
  match config.decimals with
  | some d => .ok d
  | none => env.fetchMintDecimals commitment

/-- prepareTransfer from createSplTokenHelper. -/
def prepareTransfer (env : SplEnv) (helperConfig : SplTokenHelperConfig)
    (config : SplTransferPrepareConfig) : Except ClientError PreparedSplTransfer := do
  let commitment := config.commitment
  let lifetime ← resolveLifetime env commitment config.lifetime
  let rs ← resolveSigner config.authority
  let sourceOwner := config.sourceOwner.getD rs.signer.address
  let destinationOwner := config.destinationOwner
  let sourceAta := config.sourceToken.getD (env.findAssociatedTokenPda sourceOwner)
  let destinationAta :=
    config.destinationToken.getD (env.findAssociatedTokenPda destinationOwner)
  let decimals ← resolveDecimals env helperConfig commitment
  let amount ← if config.amountInBaseUnits then splFromBaseUnits config.amount
    else splFromDecimal decimals config.amount
  let ataInstructions ← if config.ensureDestinationAta.getD true then do
      let accountPresent ← env.getAccountInfo destinationAta
      if !accountPresent then
        pure [SplInstr.createAssociatedToken destinationAta helperConfig.mint
          destinationOwner rs.signer.address]
      else pure []
    else pure ([] : List SplInstr)
  let instructionList := ataInstructions ++
    [SplInstr.transferChecked amount rs.signer.address decimals destinationAta
      helperConfig.mint sourceAta]
  let message : SplMessage :=
    { version := config.transactionVersion.getD .v0
      feePayer := rs.signer.address
      lifetimeConstraint := lifetime
      instructions := instructionList }
  .ok { amount := amount
        commitment := commitment
        decimals := decimals
        destinationAta := destinationAta
        lifetime := lifetime
        message := message
        mode := rs.mode
        signer := rs.signer
        sourceAta := sourceAta }

/-- sendPreparedTransfer from createSplTokenHelper: the sending signer path signs
and submits through the wallet and decodes the signature bytes; the partial path
signs, serializes and submits through the RPC with the option overrides. -/
def sendPreparedTransfer (env : SplEnv) (prepared : PreparedSplTransfer)
    (options : SplSendOptions) : Except ClientError String :=
  if prepared.mode == .send && isTransactionSendingSigner prepared.signer then
    env.signAndSendTransactionMessage prepared.message
  else do
    let signed ← env.signTransactionMessage prepared.message
    env.sendTransaction signed
      { preflightCommitment :=
          match options.commitment with
          | some c => some c
          | none => prepared.commitment
        maxRetries := options.maxRetries
        skipPreflight := options.skipPreflight }

/-- sendTransfer from createSplTokenHelper, instrumented with the list of prepared
transfers handed to sendPreparedTransfer, in call order.  Exactly on an
already-processed first send error the config is re-prepared with the lifetime
cleared and sent once more; every other outcome propagates unchanged. -/
def sendTransfer (env : SplEnv) (helperConfig : SplTokenHelperConfig)
    (config : SplTransferPrepareConfig) (options : SplSendOptions) :
    Except ClientError String × List PreparedSplTransfer :=
  match prepareTransfer env helperConfig config with
  | .error e => (.error e, [])
  | .ok prepared =>
    match sendPreparedTransfer env prepared options with
    | .ok s => (.ok s, [prepared])
    | .error e =>
      if isAlreadyProcessedError e then
        match prepareTransfer env helperConfig { config with lifetime := none } with
        | .error e2 => (.error e2, [prepared])
        | .ok retriedPrepared =>
          (sendPreparedTransfer env retriedPrepared options, [prepared, retriedPrepared])
      else (.error e, [prepared])

/-- fetchBalance from createSplTokenHelper: derive the ATA and the decimals, then
inside a try block read the balance and parse it; any failure inside the block is
caught and mapped to a zero balance with existsFlag false. -/
def fetchBalance (env : SplEnv) (helperConfig : SplTokenHelperConfig)
    (owner : String) (commitment : Option Commitment) :
    Except ClientError SplTokenBalance := do
  let ataAddress := env.findAssociatedTokenPda owner
  let decimals ← resolveDecimals env helperConfig commitment
  let attempt : Except ClientError SplTokenBalance := do
    let value ← env.getTokenAccountBalance ataAddress
    let amount ← splFromBaseUnits (.strAmount value.amount)
    let uiAmount := value.uiAmountString.getD value.amount
    .ok { amount := amount
          ataAddress := ataAddress
          decimals := decimals
          existsFlag := true
          uiAmount := uiAmount }
  match attempt with
  | .ok balance => .ok balance
  | .error _ =>
    .ok { amount := 0
          ataAddress := ataAddress
          decimals := decimals
          existsFlag := false
          uiAmount := ['0'] }

end Spl

-- ============================================================================
-- Concrete fixtures used by witnesses and counterexamples
-- ============================================================================

namespace Fix

/-- A fixture blockhash lifetime. -/
def lt1 : Lifetime := ⟨"FixtureBlockhash1111", 100⟩

/-- A second, distinct fixture lifetime standing for a freshly fetched one. -/
def lt2 : Lifetime := ⟨"FixtureBlockhash2222", 200⟩

/-- A plain system program instruction with no lookup table reference. -/
def plainInstr : Instr :=
  { programAddress := "11111111111111111111111111111111"
    data := some [1]
    addressTableLookup := none
    addressTableLookups := none }

/-- A wallet session exposing only the sendTransaction capability. -/
def sendOnlyWallet : WalletSession :=
  { accountAddress := "wallet-address"
    hasSignTransaction := false
    hasSendTransaction := true }

/-- A prepare environment answering every blockhash request with lt1. -/
def prepEnv : Tx.PrepEnv := ⟨fun _ => .ok lt1⟩

/-- A prepare request by the send-only wallet with a non-matching address-only
fee payer. -/
def prepReq : Tx.TransactionPrepareRequest :=
  { abortSignal := none
    authority := some (.wallet sendOnlyWallet)
    commitment := none
    computeUnitLimit := none
    computeUnitPrice := none
    feePayer := some (.addr "fee-payer-address")
    instructions := [plainInstr]
    lifetime := some lt1
    version := none }

/-- A partially signing transaction signer fixture. -/
def partialAuthority : TransactionSigner :=
  { address := "authority-address"
    hasSignTransactions := true
    hasModifyAndSignTransactions := true
    hasSignAndSendTransactions := false }

/-- The SPL helper configuration fixture with known decimals. -/
def splHelperCfg : Spl.SplTokenHelperConfig := ⟨"mint-address", some 6⟩

/-- An SPL environment in which a send bound to lt1 rejects as already processed
while a send bound to any other lifetime succeeds, and the balance RPC fails. -/
def splEnv : Spl.SplEnv :=
  { getLatestBlockhash := fun _ => .ok lt2
    findAssociatedTokenPda := fun owner => owner ++ "-ata"
    fetchMintDecimals := fun _ => .ok 6
    getAccountInfo := fun _ => .ok true
    getTokenAccountBalance := fun _ => .error (.rpcError 1)
    signAndSendTransactionMessage := fun _ => .error (.rpcError 2)
    signTransactionMessage := fun m => .ok m
    sendTransaction := fun m _ =>
      if m.lifetimeConstraint == lt1 then .error .alreadyProcessed
      else .ok "retried-signature" }

/-- An SPL transfer config carrying an explicit lt1 lifetime. -/
def splCfg : Spl.SplTransferPrepareConfig :=
  { amount := .intAmount 5
    amountInBaseUnits := true
    authority := .signer partialAuthority
    commitment := none
    destinationOwner := "destination-owner"
    destinationToken := none
    ensureDestinationAta := some false
    lifetime := some lt1
    sourceOwner := none
    sourceToken := none
    transactionVersion := none }

/-- Default SPL send options. -/
def splOpts : Spl.SplSendOptions := ⟨none, none, none⟩

/-- A tuner environment reporting 100 consumed units for every simulation. -/
def tunerEnv100 : Tuner.TunerEnv :=
  ⟨.ok lt2, fun _ => .ok (some 100)⟩

/-- A tuner environment reporting 500000 consumed units. -/
def tunerEnv500k : Tuner.TunerEnv :=
  ⟨.ok lt2, fun _ => .ok (some 500000)⟩

/-- Tuner options leaving every flag at its default. -/
def tunerCfg : Tuner.PrepareTransactionOptions := ⟨none, none, none⟩

/-- A message with one plain instruction, no compute limit, bound to lt1. -/
def tunerMsg : TransactionMessage :=
  { version := .legacy
    feePayer := some "fee-payer-address"
    feePayerSigner := none
    instructions := [plainInstr]
    lifetimeConstraint := some lt1 }

end Fix

-- ============================================================================
-- Proof development
-- ============================================================================

namespace Amounts

lemma digitsToNat_nil : digitsToNat [] = 0 := rfl

lemma foldl_digits (l : List Char) (acc : Nat) :
    l.foldl (fun a c => a * 10 + digitVal c) acc = acc * 10 ^ l.length + digitsToNat l := by
  induction l generalizing acc with
  | nil => simp [digitsToNat]
  | cons c t ih =>
    have h1 := ih (acc * 10 + digitVal c)
    have h2 := ih (0 * 10 + digitVal c)
    simp only [digitsToNat, List.foldl_cons, List.length_cons] at *
    rw [h1, h2]
    ring

lemma digitsToNat_cons (c : Char) (t : List Char) :
    digitsToNat (c :: t) = digitVal c * 10 ^ t.length + digitsToNat t := by
  simp only [digitsToNat, List.foldl_cons]
  simpa [digitsToNat] using foldl_digits t (digitVal c)

lemma digitsToNat_append (a b : List Char) :
    digitsToNat (a ++ b) = digitsToNat a * 10 ^ b.length + digitsToNat b := by
  simp only [digitsToNat, List.foldl_append]
  exact foldl_digits b (digitsToNat a)

lemma digitsToNat_replicate_zero (k : Nat) : digitsToNat (List.replicate k '0') = 0 := by
  induction k with
  | zero => rfl
  | succ n ih => rw [List.replicate_succ, digitsToNat_cons]; simp [digitVal, ih]

lemma ite_isEmpty_digitsToNat (l : List Char) :
    (if l.isEmpty then 0 else digitsToNat l) = digitsToNat l := by
  cases l <;> simp [digitsToNat]

/-- Branch-free characterization of decimalToBaseUnits: on a valid decimal string the
result is the truncated value plus the rounding increment computed from the
truncated-away remainder digits. -/
lemma decimalToBaseUnits_characterization (v : List Char) (d scale : Nat)
    (r : RoundingMode) :
    decimalToBaseUnits v d scale r =
      if (sanitize v).isEmpty then .error .emptyValue
      else if !decimalPattern (sanitize v) then .error .invalidPattern
      else .ok (truncatedBase v d scale + roundIncrement r (remainderDigitsOf v d)) := by
  unfold decimalToBaseUnits truncatedBase remainderDigitsOf
  by_cases h1 : (sanitize v).isEmpty
  · simp [h1]
  · simp only [h1, if_false, Bool.false_eq_true]
    by_cases h2 : decimalPattern (sanitize v)
    · simp only [h2, Bool.not_true, if_false, Bool.false_eq_true]
      set parts := splitDot (sanitize v) with hp
      set frac := (parts.2).getD [] with hf
      by_cases hd : d = 0
      · subst hd
        simp only [if_pos rfl]
        cases hfe : frac with
        | nil =>
          simp only [List.isEmpty_nil, if_true, List.drop_zero, List.take_zero, padEnd,
            List.nil_append, List.length_nil, Nat.sub_zero, List.replicate_zero,
            digitsToNat_nil, Nat.add_zero]
          cases r <;> simp [roundIncrement, headGe5]
        | cons c t =>
          simp only [List.isEmpty_cons, Bool.false_eq_true, if_false, List.take_zero,
            List.drop_zero, padEnd, List.nil_append, List.length_nil, Nat.sub_zero,
            List.replicate_zero, digitsToNat_nil, Nat.add_zero]
          cases r with
          | floor =>
            have e1 : (RoundingMode.floor == RoundingMode.ceil) = false := rfl
            have e2 : (RoundingMode.floor == RoundingMode.round) = false := rfl
            simp [roundIncrement, e1, e2]
          | ceil =>
            have e1 : (RoundingMode.ceil == RoundingMode.ceil) = true := rfl
            have e2 : (RoundingMode.ceil == RoundingMode.round) = false := rfl
            by_cases hz : (c :: t).any isNonzeroDigit <;>
              simp [roundIncrement, e1, e2, hz]
          | round =>
            have e1 : (RoundingMode.round == RoundingMode.ceil) = false := rfl
            have e2 : (RoundingMode.round == RoundingMode.round) = true := rfl
            by_cases hz : headGe5 (c :: t) <;> simp [roundIncrement, e1, e2, hz]
      · simp only [if_neg hd]
        rw [ite_isEmpty_digitsToNat]
        by_cases hlen : d < frac.length
        · simp only [if_pos hlen]
          cases r with
          | floor =>
            have e1 : (RoundingMode.floor == RoundingMode.ceil) = false := rfl
            have e2 : (RoundingMode.floor == RoundingMode.round) = false := rfl
            simp [roundIncrement, e1, e2]
          | ceil =>
            have e1 : (RoundingMode.ceil == RoundingMode.ceil) = true := rfl
            have e2 : (RoundingMode.ceil == RoundingMode.round) = false := rfl
            by_cases hz : (frac.drop d).any isNonzeroDigit <;>
              simp [roundIncrement, e1, e2, hz]
          | round =>
            have e1 : (RoundingMode.round == RoundingMode.ceil) = false := rfl
            have e2 : (RoundingMode.round == RoundingMode.round) = true := rfl
            by_cases hz : headGe5 (frac.drop d) <;> simp [roundIncrement, e1, e2, hz]
        · simp only [if_neg hlen]
          have hdrop : frac.drop d = [] :=
            List.drop_eq_nil_of_le (Nat.le_of_not_lt hlen)
          rw [hdrop]
          cases r <;> simp [roundIncrement, headGe5]
    · simp [h2]

lemma roundIncrement_nil (r : RoundingMode) : roundIncrement r [] = 0 := by
  cases r <;> rfl

lemma char_isDigit_bounds {c : Char} (h : c.isDigit = true) :
    48 ≤ c.toNat ∧ c.toNat ≤ 57 := by
  simp only [Char.isDigit, ge_iff_le, Bool.and_eq_true, decide_eq_true_eq] at h
  obtain ⟨h1, h2⟩ := h
  rw [UInt32.le_def, BitVec.le_def] at h1 h2
  exact ⟨h1, h2⟩

lemma digitVal_le_nine {c : Char} (h : c.isDigit = true) : digitVal c ≤ 9 := by
  have hb := char_isDigit_bounds h
  have h0 : '0'.toNat = 48 := rfl
  unfold digitVal
  omega

lemma digitChar_digitVal {c : Char} (h : c.isDigit = true) :
    digitChar (digitVal c) = c := by
  have hb := char_isDigit_bounds h
  have h0 : '0'.toNat = 48 := rfl
  unfold digitChar digitVal
  have he : '0'.toNat + (c.toNat - '0'.toNat) = c.toNat := by omega
  rw [he, Char.ofNat_toNat]

lemma digitVal_digitChar {n : Nat} (h : n < 10) : digitVal (digitChar n) = n := by
  interval_cases n <;> rfl

lemma digitChar_isDigit {n : Nat} (h : n < 10) : (digitChar n).isDigit = true := by
  interval_cases n <;> rfl

lemma digitVal_pos {c : Char} (hd : c.isDigit = true) (h0 : c ≠ '0') :
    1 ≤ digitVal c := by
  have hb := char_isDigit_bounds hd
  have hz : '0'.toNat = 48 := rfl
  have hne : c.toNat ≠ 48 := by
    intro he
    apply h0
    rw [← Char.ofNat_toNat c, he]
  unfold digitVal
  omega

lemma digitsToNat_lt (l : List Char) (h : l.all Char.isDigit = true) :
    digitsToNat l < 10 ^ l.length := by
  induction l with
  | nil => simp [digitsToNat]
  | cons c t ih =>
    rw [List.all_cons, Bool.and_eq_true] at h
    rw [digitsToNat_cons]
    have h1 := digitVal_le_nine h.1
    have h2 := ih h.2
    have h3 : digitVal c * 10 ^ t.length ≤ 9 * 10 ^ t.length :=
      Nat.mul_le_mul_right _ h1
    rw [List.length_cons, pow_succ]
    omega

lemma digitsToNat_head_pos {c : Char} (t : List Char) (hd : c.isDigit = true)
    (h0 : c ≠ '0') : 1 ≤ digitsToNat (c :: t) := by
  rw [digitsToNat_cons]
  have h1 := digitVal_pos hd h0
  have h2 : 1 ≤ 10 ^ t.length := Nat.one_le_pow _ _ (by norm_num)
  have h3 : 1 * 1 ≤ digitVal c * 10 ^ t.length := Nat.mul_le_mul h1 h2
  omega

lemma natToDigitsAux_succ (f n : Nat) :
    natToDigitsAux (f + 1) n =
      if n < 10 then [digitChar n]
      else natToDigitsAux f (n / 10) ++ [digitChar (n % 10)] := rfl

lemma natToDigitsAux_eq (n : Nat) : ∀ f, n < f → natToDigitsAux f n = natToDigits n := by
  induction n using Nat.strong_induction_on with
  | _ n ih =>
    intro f hf
    match f, hf with
    | f + 1, _ =>
      unfold natToDigits
      by_cases h10 : n < 10
      · rw [natToDigitsAux_succ, natToDigitsAux_succ, if_pos h10, if_pos h10]
      · have hpos : 0 < n := by omega
        have hdiv : n / 10 < n := Nat.div_lt_self hpos (by norm_num)
        have hfa : n / 10 < f := by omega
        rw [natToDigitsAux_succ, natToDigitsAux_succ, if_neg h10, if_neg h10]
        rw [ih (n / 10) hdiv f hfa, ih (n / 10) hdiv n hdiv]

lemma natToDigits_small {n : Nat} (h : n < 10) : natToDigits n = [digitChar n] := by
  unfold natToDigits
  rw [natToDigitsAux_succ, if_pos h]

lemma natToDigits_step {m : Nat} (h : 10 ≤ m) :
    natToDigits m = natToDigits (m / 10) ++ [digitChar (m % 10)] := by
  unfold natToDigits
  rw [natToDigitsAux_succ, if_neg (by omega)]
  congr 1
  exact natToDigitsAux_eq (m / 10) m (Nat.div_lt_self (by omega) (by norm_num))

lemma natToDigits_digitsToNat (l : List Char) (hd : l.all Char.isDigit = true)
    (hne : l ≠ []) (hcanon : l = ['0'] ∨ l.head? ≠ some '0') :
    natToDigits (digitsToNat l) = l := by
  induction l using List.reverseRecOn with
  | nil => exact absurd rfl hne
  | append_singleton a c ih =>
    rw [List.all_append, Bool.and_eq_true] at hd
    have hdc : c.isDigit = true := by simpa using hd.2
    have hval : digitVal c < 10 := Nat.lt_succ_of_le (digitVal_le_nine hdc)
    have happ : digitsToNat (a ++ [c]) = digitsToNat a * 10 + digitVal c := by
      rw [digitsToNat_append]
      simp [digitsToNat_cons, digitsToNat_nil]
    cases a with
    | nil =>
      have hone : digitsToNat ([] ++ [c]) = digitVal c := by
        simp [digitsToNat_cons, digitsToNat_nil]
      rw [hone, natToDigits_small hval, digitChar_digitVal hdc]
      rfl
    | cons x xs =>
      have hx : x.isDigit = true := by
        have hxx := hd.1
        rw [List.all_cons, Bool.and_eq_true] at hxx
        exact hxx.1
      have hx0 : x ≠ '0' := by
        rcases hcanon with hc1 | hc2
        · have := congrArg List.length hc1
          simp at this
        · intro he
          apply hc2
          simp [he]
      have hA : 1 ≤ digitsToNat (x :: xs) := digitsToNat_head_pos xs hx hx0
      have hV : 10 ≤ digitsToNat ((x :: xs) ++ [c]) := by
        rw [happ]
        omega
      rw [happ] at hV ⊢
      rw [natToDigits_step hV]
      have hdivq : (digitsToNat (x :: xs) * 10 + digitVal c) / 10 =
          digitsToNat (x :: xs) := by omega
      have hmodq : (digitsToNat (x :: xs) * 10 + digitVal c) % 10 = digitVal c := by
        omega
      rw [hdivq, hmodq, digitChar_digitVal hdc]
      have := ih hd.1 (by simp) (Or.inr (by simp [hx0]))
      rw [this]

lemma digitsToNat_replicate_append (k : Nat) (l : List Char) :
    digitsToNat (List.replicate k '0' ++ l) = digitsToNat l := by
  rw [digitsToNat_append, digitsToNat_replicate_zero]
  simp

lemma dropWhile_eq_self_of_head (p : Char → Bool) (l : List Char)
    (h : ∀ c, l.head? = some c → p c = false) : l.dropWhile p = l := by
  cases l with
  | nil => rfl
  | cons x xs =>
    have := h x rfl
    simp [List.dropWhile_cons, this]

lemma takeWhile_all_append (p : Char → Bool) (a b : List Char)
    (ha : a.all p = true) (hb : ∀ c, b.head? = some c → p c = false) :
    (a ++ b).takeWhile p = a := by
  induction a with
  | nil =>
    cases b with
    | nil => rfl
    | cons x xs =>
      have := hb x rfl
      simp [List.takeWhile_cons, this]
  | cons x xs ih =>
    rw [List.all_cons, Bool.and_eq_true] at ha
    simp [List.takeWhile_cons, ha.1, ih ha.2]

lemma dropWhile_replicate_append (p : Char → Bool) (k : Nat) (c : Char)
    (t : List Char) (hc : p c = true) :
    (List.replicate k c ++ t).dropWhile p = t.dropWhile p := by
  induction k with
  | zero => simp
  | succ n ih => simp [List.replicate_succ, List.dropWhile_cons, hc, ih]

lemma all_takeWhile (p : Char → Bool) (l : List Char) :
    (l.takeWhile p).all p = true := by
  induction l with
  | nil => rfl
  | cons x xs ih =>
    by_cases h : p x = true
    · simp [List.takeWhile_cons, h, ih]
    · simp [List.takeWhile_cons, h]

lemma trimTrailing0_append_zeros (f : List Char) (k : Nat)
    (h : ∀ c, f.getLast? = some c → c ≠ '0') :
    trimTrailing0 (f ++ List.replicate k '0') = f := by
  unfold trimTrailing0
  rw [List.reverse_append, List.reverse_replicate]
  rw [dropWhile_replicate_append _ k '0' f.reverse (by simp)]
  rw [dropWhile_eq_self_of_head]
  · exact List.reverse_reverse f
  · intro c hc
    rw [List.head?_reverse] at hc
    have hne := h c hc
    simp [hne]

lemma padStart_natToDigits (l : List Char) (d : Nat) (hlen : l.length = d)
    (hd : l.all Char.isDigit = true) (hdpos : 0 < d) :
    padStart (natToDigits (digitsToNat l)) d '0' = l := by
  have hsplit : l.takeWhile (fun c => c == '0') ++ l.dropWhile (fun c => c == '0') = l :=
    List.takeWhile_append_dropWhile (fun c => c == '0') l
  set z := l.takeWhile (fun c => c == '0') with hz
  set rest := l.dropWhile (fun c => c == '0') with hrest
  have hzrep : z = List.replicate z.length '0' := by
    apply List.eq_replicate_of_mem
    intro b hbz
    have hall := all_takeWhile (fun c => c == '0') l
    rw [← hz] at hall
    rw [List.all_eq_true] at hall
    have := hall b hbz
    simpa using this
  cases hre : rest with
  | nil =>
    have hlz : l = List.replicate d '0' := by
      rw [← hsplit, hre, List.append_nil, hzrep]
      have : z.length = d := by
        have := congrArg List.length hsplit
        rw [hre] at this
        simp at this
        omega
      rw [this]
    have hval : digitsToNat l = 0 := by
      rw [hlz]
      exact digitsToNat_replicate_zero d
    rw [hval, natToDigits_small (by norm_num)]
    unfold padStart
    have hd0 : digitChar 0 = '0' := rfl
    rw [hd0]
    simp only [List.length_cons, List.length_nil]
    rw [hlz]
    have : d - 1 + 1 = d := by omega
    calc List.replicate (d - 1) '0' ++ ['0']
        = List.replicate (d - 1 + 1) '0' := (List.replicate_succ' (d - 1) '0').symm
      _ = List.replicate d '0' := by rw [this]
  | cons x xs =>
    have hx0 : (x == '0') = false := by
      have hh := List.head?_dropWhile_not (fun c => c == '0') l
      rw [← hrest, hre] at hh
      simpa using hh
    have hxne : x ≠ '0' := by simpa using hx0
    have hrsub : rest.Sublist l := by
      rw [hrest]
      exact List.dropWhile_sublist _
    have hrall : rest.all Char.isDigit = true := by
      rw [List.all_eq_true] at hd ⊢
      intro b hb
      exact hd b (hrsub.mem hb)
    have hxd : x.isDigit = true := by
      rw [hre] at hrall
      rw [List.all_cons, Bool.and_eq_true] at hrall
      exact hrall.1
    have hvrest : digitsToNat l = digitsToNat rest := by
      conv_lhs => rw [← hsplit]
      rw [hzrep]
      exact digitsToNat_replicate_append z.length rest
    have hnat : natToDigits (digitsToNat rest) = rest := by
      apply natToDigits_digitsToNat rest hrall (by rw [hre]; simp)
      rw [hre]
      refine Or.inr ?_
      simp [hxne]
    rw [hvrest, hnat]
    unfold padStart
    have hlenz : z.length + rest.length = d := by
      have := congrArg List.length hsplit
      simp at this
      omega
    have hdz : d - rest.length = z.length := by omega
    rw [hdz, ← hzrep]
    exact hsplit

lemma drop_length_takeWhile (p : Char → Bool) (v : List Char) :
    v.drop (v.takeWhile p).length = v.dropWhile p := by
  induction v with
  | nil => rfl
  | cons x xs ih =>
    by_cases h : p x = true
    · simp [List.takeWhile_cons, List.dropWhile_cons, h, ih]
    · simp [List.takeWhile_cons, List.dropWhile_cons, h]

lemma isDigit_not_whitespace {c : Char} (h : c.isDigit = true) :
    c.isWhitespace = false := by
  have hb := char_isDigit_bounds h
  simp only [Char.isWhitespace, Bool.or_eq_false_iff, decide_eq_false_iff_not]
  refine ⟨⟨⟨?_, ?_⟩, ?_⟩, ?_⟩ <;> intro he <;> subst he <;>
    exact absurd hb.1 (by decide)

lemma isDigit_ne_dot {c : Char} (h : c.isDigit = true) : (c != '.') = true := by
  have hb := char_isDigit_bounds h
  simp only [bne_iff_ne, ne_eq]
  intro he
  subst he
  exact absurd hb.1 (by decide)

lemma sanitize_eq_self (v : List Char)
    (h : ∀ c ∈ v, c.isDigit = true ∨ c = '.') : sanitize v = v := by
  unfold sanitize trimChars
  have hfil : v.filter (fun c => c != '_') = v := by
    rw [List.filter_eq_self]
    intro a ha
    rcases h a ha with hd | hdot
    · have hb := char_isDigit_bounds hd
      simp only [bne_iff_ne, ne_eq]
      intro he
      subst he
      exact absurd hb.2 (by decide)
    · subst hdot
      rfl
  rw [hfil]
  have h1 : v.dropWhile Char.isWhitespace = v := by
    apply dropWhile_eq_self_of_head
    intro c hc
    rcases h c (List.mem_of_mem_head? hc) with hd | hdot
    · exact isDigit_not_whitespace hd
    · subst hdot
      rfl
  rw [h1]
  have h2 : v.reverse.dropWhile Char.isWhitespace = v.reverse := by
    apply dropWhile_eq_self_of_head
    intro c hc
    have hcm : c ∈ v := by
      rw [← List.mem_reverse]
      exact List.mem_of_mem_head? hc
    rcases h c hcm with hd | hdot
    · exact isDigit_not_whitespace hd
    · subst hdot
      rfl
  rw [h2, List.reverse_reverse]

lemma decimalPattern_int (i : List Char) (hi : i.all Char.isDigit = true)
    (hne : i ≠ []) : decimalPattern i = true := by
  unfold decimalPattern
  have ht : i.takeWhile Char.isDigit = i := by
    rw [List.takeWhile_eq_self_iff]
    exact fun x hx => (List.all_eq_true.mp hi) x hx
  rw [ht]
  dsimp only
  rw [List.drop_length]
  cases i with
  | nil => exact absurd rfl hne
  | cons x xs => rfl

lemma decimalPattern_dot (i f : List Char) (hi : i.all Char.isDigit = true)
    (hine : i ≠ []) (hf : f.all Char.isDigit = true) (hfne : f ≠ []) :
    decimalPattern (i ++ '.' :: f) = true := by
  unfold decimalPattern
  have ht : (i ++ '.' :: f).takeWhile Char.isDigit = i := by
    apply takeWhile_all_append _ _ _ hi
    intro c hc
    simp only [List.head?_cons, Option.some_inj] at hc
    subst hc
    rfl
  rw [ht]
  dsimp only
  rw [List.drop_left]
  cases i with
  | nil => exact absurd rfl hine
  | cons x xs =>
    cases f with
    | nil => exact absurd rfl hfne
    | cons y ys =>
      simp only [List.isEmpty_cons, Bool.not_false, Bool.true_and]
      have : ('.' == '.') = true := rfl
      rw [this]
      simp [hf]

lemma splitDot_int (i : List Char) (hi : i.all Char.isDigit = true) :
    splitDot i = (i, none) := by
  unfold splitDot
  have ht : i.takeWhile (fun c => c != '.') = i := by
    rw [List.takeWhile_eq_self_iff]
    intro x hx
    exact isDigit_ne_dot ((List.all_eq_true.mp hi) x hx)
  rw [ht]
  dsimp only
  rw [List.drop_length]

lemma splitDot_dot (i f : List Char) (hi : i.all Char.isDigit = true) :
    splitDot (i ++ '.' :: f) = (i, some f) := by
  unfold splitDot
  have ht : (i ++ '.' :: f).takeWhile (fun c => c != '.') = i := by
    apply takeWhile_all_append
    · rw [List.all_eq_true]
      intro x hx
      exact isDigit_ne_dot ((List.all_eq_true.mp hi) x hx)
    · intro c hc
      simp only [List.head?_cons, Option.some_inj] at hc
      subst hc
      rfl
  rw [ht]
  dsimp only
  rw [List.drop_left]

lemma splitDot_recompose (v : List Char) :
    v = (splitDot v).1 ++
      (match (splitDot v).2 with
       | none => []
       | some f => '.' :: f) := by
  have hsplit := List.takeWhile_append_dropWhile (fun c => c != '.') v
  unfold splitDot
  dsimp only
  rw [drop_length_takeWhile]
  cases hdw : v.dropWhile (fun c => c != '.') with
  | nil =>
    conv_lhs => rw [← hsplit, hdw]
  | cons x rest =>
    have hh := List.head?_dropWhile_not (fun c => c != '.') v
    rw [hdw] at hh
    simp only [List.head?_cons] at hh
    have hx : x = '.' := by simpa using hh
    conv_lhs => rw [← hsplit, hdw, hx]

/-- C6: on every valid decimal string input the fractional digits are truncated to
the token decimals; floor returns the truncated value, ceil adds one base unit
exactly when the truncated-away remainder contains a nonzero digit, and round adds
one exactly when the first truncated-away digit is five or greater. -/
theorem fromDecimal_rounding_modes (v : List Char) (d : Nat) (n : Nat)
    (h : fromDecimal d .floor v = .ok n) :
    fromDecimal d .ceil v =
      .ok (n + (if (remainderDigitsOf v d).any isNonzeroDigit then 1 else 0)) ∧
    fromDecimal d .round v =
      .ok (n + (if headGe5 (remainderDigitsOf v d) then 1 else 0)) ∧
    n = truncatedBase v d (10 ^ d) := by
  unfold fromDecimal at h ⊢
  by_cases hd : d > 38
  · rw [if_pos hd] at h
    exact Except.noConfusion h
  · rw [if_neg hd] at h
    rw [if_neg hd, if_neg hd]
    rw [decimalToBaseUnits_characterization] at h
    rw [decimalToBaseUnits_characterization, decimalToBaseUnits_characterization]
    by_cases h1 : (sanitize v).isEmpty = true
    · rw [if_pos h1] at h
      exact Except.noConfusion h
    · rw [if_neg h1] at h
      rw [if_neg h1, if_neg h1]
      by_cases h2 : decimalPattern (sanitize v) = true
      · have h2' : ¬((!decimalPattern (sanitize v)) = true) := by simp [h2]
        rw [if_neg h2'] at h
        rw [if_neg h2', if_neg h2']
        injection h with hn
        refine ⟨?_, ?_, ?_⟩
        · rw [← hn]
          simp [roundIncrement]
        · rw [← hn]
          simp [roundIncrement]
        · rw [← hn]
          simp [roundIncrement]
      · have h2' : (!decimalPattern (sanitize v)) = true := by simp [h2]
        rw [if_pos h2'] at h
        exact Except.noConfusion h

/-- C6 witness: at six decimals the input 1.23456789 parses to 1234567 under floor
and to 1234568 under ceil, one base unit more. -/
theorem fromDecimal_rounding_modes_witness :
    fromDecimal 6 .floor ("1.23456789".toList) = .ok 1234567 ∧
    fromDecimal 6 .ceil ("1.23456789".toList) = .ok 1234568 := by
  have hfloor : fromDecimal 6 .floor ("1.23456789".toList) = .ok 1234567 := by rfl
  have h := fromDecimal_rounding_modes ("1.23456789".toList) 6 1234567 hfloor
  have hif : (if (remainderDigitsOf ("1.23456789".toList) 6).any isNonzeroDigit
      then 1 else 0) = 1 := by rfl
  have h1 := h.1
  rw [hif] at h1
  exact ⟨hfloor, h1⟩

/-- C7 counterexample: the input 1.50 at six decimals loses no digits to
truncation, yet the default round trip returns 1.5, not 1.50: toDecimalString is
not the exact inverse of fromDecimal on all exactly representable strings. -/
theorem toDecimalString_not_exact_inverse :
    fromDecimal 6 .floor ("1.50".toList) = .ok 1500000 ∧
    remainderDigitsOf ("1.50".toList) 6 = [] ∧
    toDecimalString 6 1500000 = .ok ("1.5".toList) ∧
    ("1.5".toList ≠ "1.50".toList) := by
  refine ⟨by rfl, by rfl, by rfl, by decide⟩

lemma canonicalIntPart_facts {i : List Char} (h : canonicalIntPart i = true) :
    i ≠ [] ∧ i.all Char.isDigit = true ∧ (i = ['0'] ∨ i.head? ≠ some '0') := by
  unfold canonicalIntPart at h
  rw [Bool.and_eq_true, Bool.and_eq_true] at h
  obtain ⟨⟨h1, h2⟩, h3⟩ := h
  refine ⟨?_, h2, ?_⟩
  · cases i with
    | nil => simp at h1
    | cons x xs => simp
  · rw [Bool.or_eq_true] at h3
    rcases h3 with h3 | h3
    · left
      simpa using h3
    · right
      simpa using h3

lemma replicate_zero_digits (k : Nat) :
    (List.replicate k '0').all Char.isDigit = true := by
  rw [List.all_eq_true]
  intro x hx
  rw [List.mem_replicate] at hx
  rw [hx.2]
  rfl

/-- The value of formatBaseUnits with default options on a whole part and a
d-digit fractional block. -/
lemma formatBaseUnits_value (I L : List Char) (d : Nat)
    (hL : L.length = d) (hLd : L.all Char.isDigit = true) (hd : 0 < d) :
    formatBaseUnits ((digitsToNat I * 10 ^ d + digitsToNat L : Nat) : Int) d
        (10 ^ d) 0 true =
      .ok (natToDigits (digitsToNat I) ++
        (if trimTrailing0 L = [] then [] else '.' :: trimTrailing0 L)) := by
  have hpos : 0 < 10 ^ d := Nat.pos_pow_of_pos d (by norm_num)
  have hB : digitsToNat L < 10 ^ d := by
    have hlt := digitsToNat_lt L hLd
    rwa [hL] at hlt
  unfold formatBaseUnits
  have hneg : ¬(((digitsToNat I * 10 ^ d + digitsToNat L : Nat) : Int) < 0) :=
    Int.not_lt.mpr (by exact_mod_cast Nat.zero_le _)
  rw [if_neg hneg]
  rw [if_neg (show ¬((0 : Nat) > d) by omega)]
  rw [if_neg (show ¬(d = 0) by omega)]
  rw [Int.toNat_natCast]
  have hdiv : (digitsToNat I * 10 ^ d + digitsToNat L) / 10 ^ d = digitsToNat I := by
    rw [Nat.mul_comm (digitsToNat I)]
    rw [Nat.mul_add_div hpos]
    rw [Nat.div_eq_of_lt hB]
    omega
  have hmod : (digitsToNat I * 10 ^ d + digitsToNat L) % 10 ^ d = digitsToNat L := by
    rw [Nat.mul_comm (digitsToNat I)]
    rw [Nat.mul_add_mod]
    exact Nat.mod_eq_of_lt hB
  rw [hdiv, hmod]
  rw [padStart_natToDigits L d hL hLd hd]
  by_cases htr : trimTrailing0 L = []
  · simp [htr]
  · cases he : trimTrailing0 L with
    | nil => exact absurd he htr
    | cons x xs => simp [he]

/-- C7 (amended): on canonical decimal strings at the token precision (integer
part without leading zero, optional fractional part that is non-empty, at most
the token decimals long and without trailing zero, no underscores or whitespace)
toDecimalString with default options is the exact inverse of fromDecimal.  The
counterexample shows exactly representable but non-canonical inputs such as 1.50
round trip to 1.5 instead. -/
theorem toDecimalString_fromDecimal_canonical (v : List Char) (d : Nat)
    (r : RoundingMode) (n : Nat)
    (hcan : canonicalDecimal v d = true)
    (h : fromDecimal d r v = .ok n) :
    toDecimalString d (n : Int) = .ok v := by
  rcases hv : splitDot v with ⟨i, fopt⟩
  have hrec := splitDot_recompose v
  rw [hv] at hrec
  unfold canonicalDecimal at hcan
  dsimp only at hcan
  rw [hv] at hcan
  unfold fromDecimal at h
  by_cases hd38 : d > 38
  · rw [if_pos hd38] at h
    exact Except.noConfusion h
  rw [if_neg hd38] at h
  unfold toDecimalString
  rw [if_neg hd38]
  have hneg : ¬((n : Int) < 0) := by simp
  rw [if_neg hneg]
  cases fopt with
  | none =>
    dsimp only at hcan hrec
    rw [List.append_nil] at hrec
    subst hrec
    obtain ⟨hne, hdig, hlead⟩ := canonicalIntPart_facts hcan
    have hsan : sanitize v = v := by
      apply sanitize_eq_self
      intro c hcm
      exact Or.inl ((List.all_eq_true.mp hdig) c hcm)
    rw [decimalToBaseUnits_characterization, hsan] at h
    have hie : ¬(v.isEmpty = true) := by
      cases v with
      | nil => exact absurd rfl hne
      | cons x xs => simp
    rw [if_neg hie] at h
    have hpat := decimalPattern_int v hdig hne
    rw [if_neg (show ¬((!decimalPattern v) = true) by simp [hpat])] at h
    have htb : truncatedBase v d (10 ^ d) = digitsToNat v * 10 ^ d := by
      unfold truncatedBase
      rw [hsan, splitDot_int v hdig]
      dsimp only
      rw [if_neg hie]
      simp [padEnd, digitsToNat_replicate_zero]
    have hrem : remainderDigitsOf v d = [] := by
      unfold remainderDigitsOf
      rw [hsan, splitDot_int v hdig]
      simp
    rw [htb, hrem, roundIncrement_nil, Nat.add_zero] at h
    injection h with hn
    by_cases hdz : d = 0
    · subst hdz
      unfold formatBaseUnits
      rw [if_neg hneg]
      rw [if_neg (show ¬((0 : Nat) > 0) by omega)]
      rw [if_pos rfl]
      rw [Int.toNat_natCast]
      rw [← hn]
      rw [pow_zero, Nat.mul_one]
      rw [natToDigits_digitsToNat v hdig hne hlead]
    · have hdpos : 0 < d := by omega
      have hval := formatBaseUnits_value v (List.replicate d '0') d
        (List.length_replicate d '0') (replicate_zero_digits d) hdpos
      have htr0 : trimTrailing0 (List.replicate d '0') = [] := by
        have h0 := trimTrailing0_append_zeros [] d (by intro c hc; simp at hc)
        simpa using h0
      rw [htr0, if_pos rfl, List.append_nil] at hval
      rw [digitsToNat_replicate_zero, Nat.add_zero] at hval
      rw [natToDigits_digitsToNat v hdig hne hlead] at hval
      rw [← hn]
      exact hval
  | some f =>
    dsimp only at hcan hrec
    subst hrec
    rw [Bool.and_eq_true, Bool.and_eq_true, Bool.and_eq_true,
      Bool.and_eq_true] at hcan
    obtain ⟨⟨⟨⟨hint, hfe⟩, hfd⟩, hflen⟩, hftr⟩ := hcan
    obtain ⟨hne, hdig, hlead⟩ := canonicalIntPart_facts hint
    have hfne : f ≠ [] := by
      cases f with
      | nil => simp at hfe
      | cons x xs => simp
    have hflen' : f.length ≤ d := by simpa using hflen
    have hdpos : 0 < d := by
      have h1 : 1 ≤ f.length := by
        cases f with
        | nil => exact absurd rfl hfne
        | cons x xs => simp
      omega
    have hsan : sanitize (i ++ '.' :: f) = i ++ '.' :: f := by
      apply sanitize_eq_self
      intro c hcm
      rw [List.mem_append] at hcm
      rcases hcm with hcm | hcm
      · exact Or.inl ((List.all_eq_true.mp hdig) c hcm)
      · rw [List.mem_cons] at hcm
        rcases hcm with hcm | hcm
        · exact Or.inr hcm
        · exact Or.inl ((List.all_eq_true.mp hfd) c hcm)
    rw [decimalToBaseUnits_characterization, hsan] at h
    have hie : ¬((i ++ '.' :: f).isEmpty = true) := by
      cases i with
      | nil => exact absurd rfl hne
      | cons x xs => simp
    rw [if_neg hie] at h
    have hpat := decimalPattern_dot i f hdig hne hfd hfne
    rw [if_neg (show ¬((!decimalPattern (i ++ '.' :: f)) = true) by simp [hpat])] at h
    have hie2 : ¬(i.isEmpty = true) := by
      cases i with
      | nil => exact absurd rfl hne
      | cons x xs => simp
    have htb : truncatedBase (i ++ '.' :: f) d (10 ^ d) =
        digitsToNat i * 10 ^ d +
          digitsToNat (f ++ List.replicate (d - f.length) '0') := by
      unfold truncatedBase
      rw [hsan, splitDot_dot i f hdig]
      dsimp only [Option.getD]
      rw [if_neg hie2]
      rw [List.take_of_length_le hflen']
      rfl
    have hrem : remainderDigitsOf (i ++ '.' :: f) d = [] := by
      unfold remainderDigitsOf
      rw [hsan, splitDot_dot i f hdig]
      dsimp only [Option.getD]
      exact List.drop_eq_nil_of_le hflen'
    rw [htb, hrem, roundIncrement_nil, Nat.add_zero] at h
    injection h with hn
    have hLlen : (f ++ List.replicate (d - f.length) '0').length = d := by
      simp
      omega
    have hLd : (f ++ List.replicate (d - f.length) '0').all Char.isDigit = true := by
      rw [List.all_append, Bool.and_eq_true]
      exact ⟨hfd, replicate_zero_digits _⟩
    have hval := formatBaseUnits_value i (f ++ List.replicate (d - f.length) '0') d
      hLlen hLd hdpos
    have htrim : trimTrailing0 (f ++ List.replicate (d - f.length) '0') = f := by
      apply trimTrailing0_append_zeros
      intro c hgc hc0
      subst hc0
      rw [hgc] at hftr
      simp at hftr
    rw [htrim] at hval
    rw [if_neg hfne] at hval
    rw [natToDigits_digitsToNat i hdig hne hlead] at hval
    rw [← hn]
    exact hval

/-- C7 witness: the canonical input 1.234567 at six decimals round trips
exactly through fromDecimal and toDecimalString. -/
theorem toDecimalString_fromDecimal_canonical_witness :
    canonicalDecimal ("1.234567".toList) 6 = true ∧
    fromDecimal 6 .floor ("1.234567".toList) = .ok 1234567 ∧
    toDecimalString 6 ((1234567 : Nat) : Int) = .ok ("1.234567".toList) := by
  refine ⟨by rfl, by rfl, ?_⟩
  exact toDecimalString_fromDecimal_canonical ("1.234567".toList) 6 .floor 1234567
    (by rfl) (by rfl)

end Amounts

namespace Pool

/-- C4 counterexample: after a successful prepare, the mutation call
addInstructions with an empty list leaves the prepared snapshot set and the
prepareState at success, so the claim that every mutation call resets them to
null and idle fails. -/
theorem pool_empty_add_keeps_prepared :
    ((applyOp ([] : List Nat)
        (PoolOp.addInstructions ([] : List Nat))
        (applyOps ([] : List Nat)
          [(PoolOp.prepareSucceeds 7 : PoolOp Nat Nat Nat Nat)]
          (initialPoolState Nat Nat Nat Nat [1]))).1).prepared = some 7 ∧
    ((applyOp ([] : List Nat)
        (PoolOp.addInstructions ([] : List Nat))
        (applyOps ([] : List Nat)
          [(PoolOp.prepareSucceeds 7 : PoolOp Nat Nat Nat Nat)]
          (initialPoolState Nat Nat Nat Nat [1]))).1).prepareState.status =
      AsyncStatus.success := by
  constructor <;> rfl

/-- C4 (amended): after any committing mutation call, in any reachable state, the
prepared snapshot is cleared and both async states are idle.  The two documented
early returns (addInstructions with an empty list, removeInstruction with an out of
range index) are excluded by the mutationCommits hypothesis. -/
theorem pool_mutation_invalidates {I P S L : Type} (initialInstructions : List I)
    (ops : List (PoolOp I P S L)) (op : PoolOp I P S L)
    (s0 : PoolState I P S L)
    (hmut : isMutationOp op = true)
    (hcommit : mutationCommits op (applyOps initialInstructions ops s0)) :
    ((applyOp initialInstructions op (applyOps initialInstructions ops s0)).1).prepared = none ∧
    ((applyOp initialInstructions op (applyOps initialInstructions ops s0)).1).prepareState.status = AsyncStatus.idle ∧
    ((applyOp initialInstructions op (applyOps initialInstructions ops s0)).1).sendState.status = AsyncStatus.idle := by
  set s := applyOps initialInstructions ops s0 with hs
  cases op with
  | addInstruction i =>
    simp [applyOp, addInstruction, commitInstructions, resetDerivedState,
      createInitialAsyncState]
  | addInstructions l =>
    have hne : ¬l.isEmpty := by
      simpa [List.isEmpty_iff] using hcommit
    simp [applyOp, addInstructions, hne, commitInstructions, resetDerivedState,
      createInitialAsyncState]
  | replaceInstructions l =>
    simp [applyOp, replaceInstructions, commitInstructions, resetDerivedState,
      createInitialAsyncState]
  | clearInstructions =>
    simp [applyOp, clearInstructions, commitInstructions, resetDerivedState,
      createInitialAsyncState]
  | removeInstruction index =>
    have hrange : ¬(index < 0 ∨ (s.instructions.length : Int) ≤ index) := by
      obtain ⟨h1, h2⟩ := hcommit
      omega
    simp [applyOp, removeInstruction, hrange, commitInstructions,
      resetDerivedState, createInitialAsyncState]
  | reset =>
    simp [applyOp, reset, commitInstructions, resetDerivedState,
      createInitialAsyncState]
  | setLatestBlockhashCache cache => simp [mutationCommits] at hcommit
  | prepareSucceeds p => simp [mutationCommits] at hcommit
  | prepareFails e => simp [mutationCommits] at hcommit
  | sendSucceeds sig => simp [mutationCommits] at hcommit
  | sendFails e => simp [mutationCommits] at hcommit

/-- C4 witness: a concrete run where a replaceInstructions call follows a
successful prepare and the invalidation holds. -/
theorem pool_mutation_invalidates_witness :
    ((applyOp ([] : List Nat)
        (PoolOp.replaceInstructions [2])
        (applyOps ([] : List Nat)
          [(PoolOp.prepareSucceeds 7 : PoolOp Nat Nat Nat Nat)]
          (initialPoolState Nat Nat Nat Nat [1]))).1).prepared = none ∧
    ((applyOp ([] : List Nat)
        (PoolOp.replaceInstructions [2])
        (applyOps ([] : List Nat)
          [(PoolOp.prepareSucceeds 7 : PoolOp Nat Nat Nat Nat)]
          (initialPoolState Nat Nat Nat Nat [1]))).1).prepareState.status = AsyncStatus.idle ∧
    ((applyOp ([] : List Nat)
        (PoolOp.replaceInstructions [2])
        (applyOps ([] : List Nat)
          [(PoolOp.prepareSucceeds 7 : PoolOp Nat Nat Nat Nat)]
          (initialPoolState Nat Nat Nat Nat [1]))).1).sendState.status = AsyncStatus.idle :=
  pool_mutation_invalidates ([] : List Nat)
    [(PoolOp.prepareSucceeds 7 : PoolOp Nat Nat Nat Nat)]
    (PoolOp.replaceInstructions [2])
    (initialPoolState Nat Nat Nat Nat [1]) rfl trivial

/-- C10: addInstructions with an empty list and removeInstruction with a negative
or too large index are complete no-ops: the state (all four slices and the cache)
is returned unchanged and no store write, hence no listener notification, occurs. -/
theorem pool_noop_mutations {I P S L : Type} (s : PoolState I P S L) (index : Int)
    (hrange : index < 0 ∨ (s.instructions.length : Int) ≤ index) :
    addInstructions ([] : List I) s = (s, []) ∧
    removeInstruction index s = (s, []) := by
  constructor
  · simp [addInstructions]
  · simp [removeInstruction, hrange]

/-- C10 witness: concrete no-op calls on a one-instruction pool. -/
theorem pool_noop_mutations_witness :
    addInstructions ([] : List Nat) (initialPoolState Nat Nat Nat Nat [5]) =
      (initialPoolState Nat Nat Nat Nat [5], []) ∧
    removeInstruction 3 (initialPoolState Nat Nat Nat Nat [5]) =
      (initialPoolState Nat Nat Nat Nat [5], []) :=
  pool_noop_mutations (initialPoolState Nat Nat Nat Nat [5]) 3
    (Or.inr (by decide))

/-- C8: the cached lifetime snapshot is injected as the default for prepare and
prepareAndSend exactly when the caller supplied no lifetime and the cache age is
within the window; an absent cache injects nothing; the max age defaults to
30000 ms. -/
theorem pool_cached_lifetime {L : Type} (requestLifetime : Option L)
    (c : LatestBlockhashCache L) (maxAge now : Int) :
    blockhashMaxAgeMsOf none = 30000 ∧
    prepareEffectiveLifetime requestLifetime (some c) maxAge now =
      (if requestLifetime.isNone ∧ now - c.updatedAt ≤ maxAge
       then some c.value else requestLifetime) ∧
    resolveLifetimeOptions requestLifetime (some c) maxAge now =
      (if requestLifetime.isNone ∧ now - c.updatedAt ≤ maxAge
       then some c.value else requestLifetime) ∧
    prepareEffectiveLifetime requestLifetime none maxAge now = requestLifetime ∧
    resolveLifetimeOptions requestLifetime none maxAge now = requestLifetime := by
  refine ⟨rfl, ?_, ?_, ?_, ?_⟩
  · cases requestLifetime with
    | none =>
      by_cases h : now - c.updatedAt ≤ maxAge
      · have h2 : ¬(maxAge < now - c.updatedAt) := Int.not_lt.mpr h
        simp [prepareEffectiveLifetime, resolveCachedLifetime, h, h2]
      · have h2 : maxAge < now - c.updatedAt := Int.not_le.mp h
        simp [prepareEffectiveLifetime, resolveCachedLifetime, h, h2]
    | some l => simp [prepareEffectiveLifetime]
  · cases requestLifetime with
    | none =>
      by_cases h : now - c.updatedAt ≤ maxAge
      · have h2 : ¬(maxAge < now - c.updatedAt) := Int.not_lt.mpr h
        simp [resolveLifetimeOptions, resolveCachedLifetime, h, h2]
      · have h2 : maxAge < now - c.updatedAt := Int.not_le.mp h
        simp [resolveLifetimeOptions, resolveCachedLifetime, h, h2]
    | some l => simp [resolveLifetimeOptions]
  · cases requestLifetime with
    | none => simp [prepareEffectiveLifetime, resolveCachedLifetime]
    | some l => simp [prepareEffectiveLifetime]
  · cases requestLifetime with
    | none => simp [resolveLifetimeOptions, resolveCachedLifetime]
    | some l => simp [resolveLifetimeOptions]

end Pool

namespace Tx

/-- Every successful prepare carries the mode obtained by forcing the authority
mode against the resolved fee payer signer. -/
lemma prepare_ok_mode (env : PrepEnv) (fb : Commitment)
    (request : TransactionPrepareRequest) (p : TransactionPrepared)
    (authoritySigner : Option TransactionSigner) (m0 : SignerMode)
    (fp : ResolvedFeePayer)
    (hauth : resolveAuthority request.authority = .ok (authoritySigner, m0))
    (hfp : resolveFeePayerAddress request.feePayer authoritySigner = .ok fp)
    (h : prepare env fb request = .ok p) :
    p.mode = forceMode m0 fp.signer := by
  unfold prepare at h
  simp only [bind, Except.bind, pure, Except.pure, throw, throwThe,
    MonadExceptOf.throw] at h
  rw [hauth] at h
  simp only [Except.bind] at h
  rw [hfp] at h
  simp only [Except.bind] at h
  repeat' split at h
  all_goals first
    | exact Except.noConfusion h
    | (cases h; rfl)

/-- C5: resolveVersion evaluated at an explicit version 0 request with a single
instruction that references no address lookup table yields legacy, not the
requested 0: the falsy version 0 falls into the auto branch. -/
theorem resolveVersion_explicit_zero_ignored :
    resolveVersion (some (RequestedVersion.explicitVersion TransactionVersion.v0))
      [Fix.plainInstr] = TransactionVersion.legacy ∧
    instructionUsesAddressLookup Fix.plainInstr = false := by
  constructor <;> rfl

/-- C3: a wallet session exposing only sendTransaction resolves to the send mode
with a sending-only signer, and any successful prepare whose authority resolved to
the send mode but whose resolved fee payer carries no sending signer is forced back
to the partial mode. -/
theorem signer_mode_consistency
    (w : WalletSession) (hsig : w.hasSignTransaction = false)
    (hsend : w.hasSendTransaction = true)
    (env : PrepEnv) (fb : Commitment) (request : TransactionPrepareRequest)
    (p : TransactionPrepared)
    (authoritySigner : Option TransactionSigner) (fp : ResolvedFeePayer)
    (hauth : resolveAuthority request.authority = .ok (authoritySigner, .send))
    (hfp : resolveFeePayerAddress request.feePayer authoritySigner = .ok fp)
    (hnotsending : ∀ s, fp.signer = some s → isTransactionSendingSigner s = false)
    (hp : prepare env fb request = .ok p) :
    Wallet.createWalletTransactionSigner w =
      .ok { mode := .send
            signer := { address := w.accountAddress
                        hasSignTransactions := false
                        hasModifyAndSignTransactions := false
                        hasSignAndSendTransactions := true } } ∧
    p.mode = .partialSign := by
  constructor
  · simp [Wallet.createWalletTransactionSigner, hsig, hsend]
  · rw [prepare_ok_mode env fb request p authoritySigner .send fp hauth hfp hp]
    cases hfps : fp.signer with
    | none => rfl
    | some s =>
      have := hnotsending s hfps
      simp [forceMode, this]

/-- C3 witness: the fixture wallet and request run through prepare and end in the
partial mode. -/
theorem signer_mode_consistency_witness :
    Wallet.createWalletTransactionSigner Fix.sendOnlyWallet =
      .ok { mode := .send
            signer := { address := Fix.sendOnlyWallet.accountAddress
                        hasSignTransactions := false
                        hasModifyAndSignTransactions := false
                        hasSignAndSendTransactions := true } } ∧
    (prepare Fix.prepEnv Commitment.confirmed Fix.prepReq).toOption.map
      TransactionPrepared.mode = some SignerMode.partialSign := by
  have hok : (prepare Fix.prepEnv Commitment.confirmed Fix.prepReq).isOk = true := by
    decide
  cases hE : prepare Fix.prepEnv Commitment.confirmed Fix.prepReq with
  | error e => rw [hE] at hok; simp [Except.isOk, Except.toBool] at hok
  | ok p =>
    have h := signer_mode_consistency Fix.sendOnlyWallet rfl rfl
      Fix.prepEnv Commitment.confirmed Fix.prepReq p
      (some { address := "wallet-address"
              hasSignTransactions := false
              hasModifyAndSignTransactions := false
              hasSignAndSendTransactions := true })
      { address := "fee-payer-address", signer := none }
      (by rfl) (by rfl) (fun s hs => by cases hs) hE
    refine ⟨h.1, ?_⟩
    simp only [Except.toOption, Option.map_some]
    exact congrArg some h.2

end Tx

namespace Spl

/-- A transfer prepared from a config whose lifetime was cleared carries the
lifetime freshly fetched from the chain at the config commitment. -/
lemma prepareTransfer_cleared_lifetime (env : SplEnv) (hc : SplTokenHelperConfig)
    (config : SplTransferPrepareConfig) (rp : PreparedSplTransfer)
    (h : prepareTransfer env hc { config with lifetime := none } = .ok rp) :
    env.getLatestBlockhash config.commitment = .ok rp.lifetime := by
  unfold prepareTransfer resolveLifetime at h
  simp only [bind, Except.bind, pure, Except.pure] at h
  cases hfetch : env.getLatestBlockhash config.commitment with
  | error e => rw [hfetch] at h; exact Except.noConfusion h
  | ok l =>
    rw [hfetch] at h
    repeat' split at h
    all_goals first
      | exact Except.noConfusion h
      | (cases h; simp_all)

/-- C1: sendTransfer prepares and sends once; exactly on an already-processed
first-send rejection it re-prepares the same config with the lifetime cleared
(whose lifetime is then the freshly fetched blockhash) and sends exactly one more
time, propagating the retry outcome verbatim; every other first-send error, and any
error of the retry itself, propagates with no further attempt.  The second
component of sendTransfer lists the prepared transfers handed to
sendPreparedTransfer, in order. -/
theorem spl_send_transfer_retry (env : SplEnv) (hc : SplTokenHelperConfig)
    (config : SplTransferPrepareConfig) (options : SplSendOptions) :
    (∀ e, prepareTransfer env hc config = .error e →
        sendTransfer env hc config options = (.error e, [])) ∧
    (∀ prepared, prepareTransfer env hc config = .ok prepared →
      (∀ s, sendPreparedTransfer env prepared options = .ok s →
          sendTransfer env hc config options = (.ok s, [prepared])) ∧
      (∀ e, sendPreparedTransfer env prepared options = .error e →
        (isAlreadyProcessedError e = false →
            sendTransfer env hc config options = (.error e, [prepared])) ∧
        (isAlreadyProcessedError e = true →
          (∀ e2, prepareTransfer env hc { config with lifetime := none } = .error e2 →
              sendTransfer env hc config options = (.error e2, [prepared])) ∧
          (∀ rp, prepareTransfer env hc { config with lifetime := none } = .ok rp →
              sendTransfer env hc config options =
                (sendPreparedTransfer env rp options, [prepared, rp]) ∧
              env.getLatestBlockhash config.commitment = .ok rp.lifetime)))) := by
  refine ⟨?_, ?_⟩
  · intro e he
    unfold sendTransfer
    rw [he]
  · intro prepared hp
    refine ⟨?_, ?_⟩
    · intro s hs
      unfold sendTransfer
      simp [hp, hs]
    · intro e he
      refine ⟨?_, ?_⟩
      · intro hnot
        unfold sendTransfer
        simp [hp, he, hnot]
      · intro hap
        refine ⟨?_, ?_⟩
        · intro e2 he2
          unfold sendTransfer
          simp [hp, he, hap, he2]
        · intro rp hrp
          refine ⟨?_, ?_⟩
          · unfold sendTransfer
            simp [hp, he, hap, hrp]
          · exact prepareTransfer_cleared_lifetime env hc config rp hrp

/-- C1 witness: with the fixture environment, the first send bound to the stale
lifetime rejects as already processed, the retry is prepared with the freshly
fetched lifetime and succeeds, and exactly two sends happen. -/
theorem spl_send_transfer_retry_witness :
    sendTransfer Fix.splEnv Fix.splHelperCfg Fix.splCfg Fix.splOpts =
      (.ok "retried-signature",
       [{ amount := 5
          commitment := none
          decimals := 6
          destinationAta := "destination-owner-ata"
          lifetime := Fix.lt1
          message := { version := .v0
                       feePayer := "authority-address"
                       lifetimeConstraint := Fix.lt1
                       instructions := [SplInstr.transferChecked 5 "authority-address" 6
                         "destination-owner-ata" "mint-address" "authority-address-ata"] }
          mode := .partialSign
          signer := Fix.partialAuthority
          sourceAta := "authority-address-ata" },
        { amount := 5
          commitment := none
          decimals := 6
          destinationAta := "destination-owner-ata"
          lifetime := Fix.lt2
          message := { version := .v0
                       feePayer := "authority-address"
                       lifetimeConstraint := Fix.lt2
                       instructions := [SplInstr.transferChecked 5 "authority-address" 6
                         "destination-owner-ata" "mint-address" "authority-address-ata"] }
          mode := .partialSign
          signer := Fix.partialAuthority
          sourceAta := "authority-address-ata" }]) ∧
    Fix.splEnv.getLatestBlockhash Fix.splCfg.commitment = .ok Fix.lt2 := by
  have h := spl_send_transfer_retry Fix.splEnv Fix.splHelperCfg Fix.splCfg Fix.splOpts
  have hp : prepareTransfer Fix.splEnv Fix.splHelperCfg Fix.splCfg =
      .ok { amount := 5
            commitment := none
            decimals := 6
            destinationAta := "destination-owner-ata"
            lifetime := Fix.lt1
            message := { version := .v0
                         feePayer := "authority-address"
                         lifetimeConstraint := Fix.lt1
                         instructions := [SplInstr.transferChecked 5 "authority-address" 6
                           "destination-owner-ata" "mint-address" "authority-address-ata"] }
            mode := .partialSign
            signer := Fix.partialAuthority
            sourceAta := "authority-address-ata" } := by rfl
  have hrp : prepareTransfer Fix.splEnv Fix.splHelperCfg
      { Fix.splCfg with lifetime := none } =
      .ok { amount := 5
            commitment := none
            decimals := 6
            destinationAta := "destination-owner-ata"
            lifetime := Fix.lt2
            message := { version := .v0
                         feePayer := "authority-address"
                         lifetimeConstraint := Fix.lt2
                         instructions := [SplInstr.transferChecked 5 "authority-address" 6
                           "destination-owner-ata" "mint-address" "authority-address-ata"] }
            mode := .partialSign
            signer := Fix.partialAuthority
            sourceAta := "authority-address-ata" } := by rfl
  have hfirst := ((h.2 _ hp).2 ClientError.alreadyProcessed (by rfl)).2 rfl
  have hmain := (hfirst.2 _ hrp).1
  refine ⟨?_, (hfirst.2 _ hrp).2⟩
  rw [hmain]
  rfl

/-- C9 counterexample: the underlying getTokenAccountBalance call fails, yet
fetchBalance returns a normal zero balance result instead of surfacing the
failure. -/
theorem spl_fetch_balance_swallows :
    fetchBalance Fix.splEnv Fix.splHelperCfg "owner" none =
      .ok { amount := 0
            ataAddress := "owner-ata"
            decimals := 6
            existsFlag := false
            uiAmount := ['0'] } ∧
    Fix.splEnv.getTokenAccountBalance "owner-ata" = .error (.rpcError 1) := by
  constructor <;> rfl

/-- C9 (amended): failures before the try block of fetchBalance (decimals
resolution) propagate, but any failure of the balance read or of the amount
parsing inside the try block is caught and mapped to the zero balance result with
existsFlag false; a successful read returns the parsed balance. -/
theorem spl_fetch_balance_error_policy (env : SplEnv) (hc : SplTokenHelperConfig)
    (owner : String) (commitment : Option Commitment) :
    (∀ e, resolveDecimals env hc commitment = .error e →
        fetchBalance env hc owner commitment = .error e) ∧
    (∀ d, resolveDecimals env hc commitment = .ok d →
      (∀ e, env.getTokenAccountBalance (env.findAssociatedTokenPda owner) = .error e →
          fetchBalance env hc owner commitment =
            .ok { amount := 0
                  ataAddress := env.findAssociatedTokenPda owner
                  decimals := d
                  existsFlag := false
                  uiAmount := ['0'] }) ∧
      (∀ v, env.getTokenAccountBalance (env.findAssociatedTokenPda owner) = .ok v →
        (∀ e, splFromBaseUnits (.strAmount v.amount) = .error e →
            fetchBalance env hc owner commitment =
              .ok { amount := 0
                    ataAddress := env.findAssociatedTokenPda owner
                    decimals := d
                    existsFlag := false
                    uiAmount := ['0'] }) ∧
        (∀ a, splFromBaseUnits (.strAmount v.amount) = .ok a →
            fetchBalance env hc owner commitment =
              .ok { amount := a
                    ataAddress := env.findAssociatedTokenPda owner
                    decimals := d
                    existsFlag := true
                    uiAmount := v.uiAmountString.getD v.amount }))) := by
  refine ⟨?_, ?_⟩
  · intro e he
    unfold fetchBalance
    simp [bind, Except.bind, he]
  · intro d hd
    refine ⟨?_, ?_⟩
    · intro e he
      unfold fetchBalance
      simp [bind, Except.bind, hd, he]
    · intro v hv
      refine ⟨?_, ?_⟩
      · intro e he
        unfold fetchBalance
        simp [bind, Except.bind, hd, hv, he]
      · intro a ha
        unfold fetchBalance
        simp [bind, Except.bind, hd, hv, ha]

/-- C9 amended witness: the fixture environment exercises the caught branch. -/
theorem spl_fetch_balance_error_policy_witness :
    fetchBalance Fix.splEnv Fix.splHelperCfg "owner" none =
      .ok { amount := 0
            ataAddress := "owner-ata"
            decimals := 6
            existsFlag := false
            uiAmount := ['0'] } :=
  ((spl_fetch_balance_error_policy Fix.splEnv Fix.splHelperCfg "owner" none).2
    6 (by rfl)).1 (.rpcError 1) (by rfl)

end Spl

namespace Tuner

/-- C2 counterexample: simulation reports 100 consumed units; the claim formula
max(1, ceil(100 times 1.1)) gives 110, but the code computes the product in
binary64 arithmetic where 100 * 1.1 is slightly above 110, so the installed
instruction requests 111 units. -/
theorem tuner_units_float_counterexample :
    prepareTransaction Fix.tunerEnv100 Fix.tunerCfg Fix.tunerMsg =
      .ok { version := .legacy
            feePayer := some "fee-payer-address"
            feePayerSigner := none
            instructions := [Fix.plainInstr, getSetComputeUnitLimitInstruction 111]
            lifetimeConstraint := some Fix.lt2 } ∧
    Jsd.specExactUnits 100 = 110 ∧
    tunedUnits 100 Jsd.DEFAULT_COMPUTE_UNIT_LIMIT_MULTIPLIER = 111 := by
  refine ⟨?_, ?_, ?_⟩ <;> rfl

/-- C2 (amended): when no compute unit limit instruction is present, or when a
reset is requested, the tuner simulates and installs an instruction requesting
max(1, ceil(unitsConsumed * multiplier)) units where the product is evaluated in
binary64 floating point arithmetic (multiplier defaulting to the double nearest
1.1, unitsConsumed defaulting to 0, and 200000 substituted at zero); the new
instruction replaces an existing compute limit instruction at its index, otherwise
it is appended; without a trigger the instruction list is unchanged.  In binary64
arithmetic 500000 * 1.1 rounds to exactly 550000. -/
theorem tuner_compute_units (env : TunerEnv) (config : PrepareTransactionOptions)
    (msg : TransactionMessage) (res : TransactionMessage) (u : Nat)
    (hu : estimateComputeUnits env msg = .ok u)
    (hres : prepareTransaction env config msg = .ok res) :
    (msg.instructions.findIdx? isComputeUnitLimitInstruction = none →
        res.instructions = msg.instructions ++
          [getSetComputeUnitLimitInstruction
            (tunedUnits u (config.computeUnitLimitMultiplier.getD
              Jsd.DEFAULT_COMPUTE_UNIT_LIMIT_MULTIPLIER))]) ∧
    (∀ idx, msg.instructions.findIdx? isComputeUnitLimitInstruction = some idx →
      (config.computeUnitLimitReset.getD false = true →
          res.instructions = spliceReplace msg.instructions idx
            (getSetComputeUnitLimitInstruction
              (tunedUnits u (config.computeUnitLimitMultiplier.getD
                Jsd.DEFAULT_COMPUTE_UNIT_LIMIT_MULTIPLIER)))) ∧
      (config.computeUnitLimitReset.getD false = false →
          res.instructions = msg.instructions)) ∧
    (∀ m : Jsd.JsNum, tunedUnits 0 m = 200000) ∧
    tunedUnits 500000 Jsd.DEFAULT_COMPUTE_UNIT_LIMIT_MULTIPLIER = 550000 := by
  refine ⟨?_, ?_, fun m => rfl, by rfl⟩
  · intro hidx
    unfold prepareTransaction at hres
    simp only [bind, Except.bind, pure, Except.pure, hidx, hu, Option.isNone_none,
      Bool.true_or, if_true] at hres
    repeat' split at hres
    all_goals first
      | exact Except.noConfusion hres
      | (cases hres; rfl)
  · intro idx hidx
    constructor
    · intro hreset
      unfold prepareTransaction at hres
      simp only [bind, Except.bind, pure, Except.pure, hidx, hu, hreset,
        Option.isNone_some, Bool.false_or, if_true] at hres
      repeat' split at hres
      all_goals first
        | exact Except.noConfusion hres
        | (cases hres; rfl)
    · intro hreset
      unfold prepareTransaction at hres
      simp only [bind, Except.bind, pure, Except.pure, hidx, hu, hreset,
        Option.isNone_some, Bool.false_or, Bool.false_eq_true, if_false] at hres
      repeat' split at hres
      all_goals first
        | exact Except.noConfusion hres
        | (cases hres; rfl)

/-- C2 witness: simulation reporting 500000 consumed units with the default
multiplier yields a compute unit limit instruction requesting exactly 550000
units, appended to the instruction list. -/
theorem tuner_compute_units_witness :
    prepareTransaction Fix.tunerEnv500k Fix.tunerCfg Fix.tunerMsg =
      .ok { version := .legacy
            feePayer := some "fee-payer-address"
            feePayerSigner := none
            instructions := Fix.tunerMsg.instructions ++
              [getSetComputeUnitLimitInstruction
                (tunedUnits 500000 Jsd.DEFAULT_COMPUTE_UNIT_LIMIT_MULTIPLIER)]
            lifetimeConstraint := some Fix.lt2 } ∧
    tunedUnits 500000 Jsd.DEFAULT_COMPUTE_UNIT_LIMIT_MULTIPLIER = 550000 := by
  have hok : (prepareTransaction Fix.tunerEnv500k Fix.tunerCfg Fix.tunerMsg).isOk = true := by
    rfl
  cases hres : prepareTransaction Fix.tunerEnv500k Fix.tunerCfg Fix.tunerMsg with
  | error e =>
    rw [hres] at hok
    exact Bool.noConfusion hok
  | ok res =>
    have h := tuner_compute_units Fix.tunerEnv500k Fix.tunerCfg Fix.tunerMsg res
      500000 (by rfl) hres
    have hlit : prepareTransaction Fix.tunerEnv500k Fix.tunerCfg Fix.tunerMsg =
        .ok { version := .legacy
              feePayer := some "fee-payer-address"
              feePayerSigner := none
              instructions := Fix.tunerMsg.instructions ++
                [getSetComputeUnitLimitInstruction
                  (tunedUnits 500000 Jsd.DEFAULT_COMPUTE_UNIT_LIMIT_MULTIPLIER)]
              lifetimeConstraint := some Fix.lt2 } := by rfl
    rw [hres] at hlit
    exact ⟨hlit, h.2.2.2⟩

end Tuner

end KitReact
